import Mathlib

/-!
Verification of the chess-engine core (position, make/unmake, Zobrist hasher,
evaluation, static exchange evaluation, FEN parsing) as a shallow embedding of
the Rust sources `position.rs`, `hash.rs`, `eval.rs` and `movegen.rs`.

Bitboards are 64-bit words modelled as `Nat` with explicit masking by `M64`.
The file `bitboard.rs` (bitboard and square primitives, attack tables) is not
part of the provided sources; its operations are modelled from the spec, as
documented on each such definition.
-/

namespace Asym

/-! ## Bitboard and square primitives (modelled from the spec) -/

/-- Mask of the 64 board bits. -/
def M64 : Nat := 0xFFFFFFFFFFFFFFFF

/-- Modelled from the spec: `to_bb(sq)` returns the singleton bitboard of square `sq`
(`bitboard.rs` is not among the provided sources). -/
def bitB (sq : Nat) : Nat := 1 <<< sq

/-- Modelled from the spec: the boolean test `bb & sq` ("bitboard contains square"),
a non-zero test of `bb & (1 << sq)`. -/
def testB (bb sq : Nat) : Bool := bb.testBit sq

/-- Modelled from the spec: bitwise complement `!bb` of a 64-bit bitboard. -/
def notB (bb : Nat) : Nat := M64 ^^^ (bb &&& M64)

/-- Modelled from the spec: the `FILE_A` mask (all squares with file 0). -/
def FILE_A : Nat := 0x0101010101010101

/-- Modelled from the spec: the `FILE_H` mask. -/
def FILE_H : Nat := FILE_A <<< 7

/-- Modelled from the spec: `FILES[f]` is the mask of squares on file `f`. -/
def FILES (f : Nat) : Nat := FILE_A <<< f

/-- Modelled from the spec: `RANKS[r]` is the mask of squares on rank index `r`. -/
def RANKS (r : Nat) : Nat := 0xFF <<< (8 * r)

def RANK_1 : Nat := RANKS 0
def RANK_2 : Nat := RANKS 1
def RANK_3 : Nat := RANKS 2
def RANK_4 : Nat := RANKS 3
def RANK_5 : Nat := RANKS 4
def RANK_6 : Nat := RANKS 5
def RANK_7 : Nat := RANKS 6
def RANK_8 : Nat := RANKS 7

/-- Modelled from the spec: bitboard shift `forward(white, n)`:
`shl 8n` for White, `shr 8n` for Black. -/
def fwdB (white : Bool) (n : Nat) (bb : Nat) : Nat :=
  if white then (bb <<< (8 * n)) &&& M64 else bb >>> (8 * n)

/-- Modelled from the spec: bitboard shift `backward(white, n) = forward(!white, n)`. -/
def bwdB (white : Bool) (n : Nat) (bb : Nat) : Nat := fwdB (!white) n bb

/-- Mask of the files with index `< n`. -/
def filesLT (n : Nat) : Nat := (List.range n).foldl (fun a i => a ||| FILES i) 0

/-- Mask of the files with index `≥ n`. -/
def filesGE (n : Nat) : Nat :=
  ((List.range 8).filter (fun i => n ≤ i)).foldl (fun a i => a ||| FILES i) 0

/-- Modelled from the spec: `left(n)` shifts one square towards file a per step and
clears bits whose file is `< n`. -/
def leftB (n : Nat) (bb : Nat) : Nat := (bb &&& notB (filesLT n)) >>> n

/-- Modelled from the spec: `right(n)` shifts towards file h and clears bits whose
file is `≥ 8 − n`. -/
def rightB (n : Nat) (bb : Nat) : Nat := ((bb &&& notB (filesGE (8 - n))) <<< n) &&& M64

/-- Modelled from the spec: `Square::file() = index & 7`. -/
def sqFile (sq : Nat) : Nat := sq &&& 7

/-- Modelled from the spec: `Square::rank() = index >> 3`. -/
def sqRank (sq : Nat) : Nat := sq >>> 3

/-- Modelled from the spec: `Square::forward(true, n) = +8n`, `forward(false, n) = −8n`. -/
def sqFwd (white : Bool) (n sq : Nat) : Nat := if white then sq + 8 * n else sq - 8 * n

/-- Modelled from the spec: `Square::backward(white, n) = forward(!white, n)`. -/
def sqBwd (white : Bool) (n sq : Nat) : Nat := sqFwd (!white) n sq

/-- Modelled from the spec: `Square::left(n)`. -/
def sqLeft (n sq : Nat) : Nat := sq - n

/-- Modelled from the spec: `Square::right(n)`. -/
def sqRight (n sq : Nat) : Nat := sq + n

/-- Modelled from the spec: `Square::file_rank(file, rank)`. -/
def fileRank (f r : Nat) : Nat := 8 * r + f

/-- Modelled from the spec: `popcount` of a 64-bit bitboard. -/
def popcountB (bb : Nat) : Nat := ((List.range 64).filter (fun i => bb.testBit i)).length

/-- Modelled from the spec: iteration over the set squares of a bitboard in
ascending index order (`Bitboard::squares`). -/
def bbSquares (bb : Nat) : List Nat := (List.range 64).filter (fun i => bb.testBit i)

/-! ## Pieces and moves (`movegen.rs`) -/

/-- `movegen.rs`: `enum Piece`. -/
inductive Piece where
  | Pawn
  | Knight
  | Bishop
  | Rook
  | Queen
  | King
deriving DecidableEq, Repr

/-- `movegen.rs`: `Piece::index`. -/
def Piece.index : Piece → Nat
  | .Pawn => 0
  | .Knight => 1
  | .Bishop => 2
  | .Rook => 3
  | .Queen => 4
  | .King => 5

/-- `movegen.rs`: `Piece::value`. The source returns `eg(PAWN_SCORE)` etc.; the `eg`
helper is not among the provided sources. Modelled from the spec, which states the
pure centipawn constants (100/300/320/500/1000) are authoritative for these values. -/
def Piece.value : Piece → Int
  | .Pawn => 100
  | .Knight => 300
  | .Bishop => 320
  | .Rook => 500
  | .Queen => 1000
  | .King => 10000

/-- `movegen.rs`: `Piece::see_value`. -/
def Piece.see_value : Piece → Int
  | .Pawn => 120
  | .Knight => 300
  | .Bishop => 300
  | .Rook => 550
  | .Queen => 1000
  | .King => 10000

/-- `movegen.rs`: `struct Move`. The source field `from` is called `fromSq` here
because `from` is a reserved word in Lean. -/
structure Move where
  fromSq : Nat
  toSq : Nat
  piece : Piece
  captured : Option Piece
  promoted : Option Piece
  en_passant : Bool
deriving DecidableEq, Repr

/-! ## Position (`position.rs`) -/

def CASTLE_WHITE_KSIDE : Nat := 0x1
def CASTLE_WHITE_QSIDE : Nat := 0x2
def CASTLE_BLACK_KSIDE : Nat := 0x4
def CASTLE_BLACK_QSIDE : Nat := 0x8

/-- Bitwise complement of a `u8` castling mask (`!x` on `u8`). -/
def notB8 (x : Nat) : Nat := 0xFF ^^^ (x &&& 0xFF)

/-- `position.rs`: `struct IrreversibleDetails`. -/
structure IrreversibleDetails where
  halfmove : Nat
  en_passant : Nat
  castling : Nat
deriving DecidableEq, Repr

/-- The per-piece bitboard array `bb: [Bitboard; 6]` of `Position`, one field per
piece index. -/
structure BB where
  pawn : Nat
  knight : Nat
  bishop : Nat
  rook : Nat
  queen : Nat
  king : Nat
deriving DecidableEq, Repr

/-- Array read `bb[p.index()]`. -/
def BB.get (b : BB) : Piece → Nat
  | .Pawn => b.pawn
  | .Knight => b.knight
  | .Bishop => b.bishop
  | .Rook => b.rook
  | .Queen => b.queen
  | .King => b.king

/-- Array update `bb[p.index()] ^= x`. -/
def BB.xorAt (b : BB) (p : Piece) (x : Nat) : BB :=
  match p with
  | .Pawn => { b with pawn := b.pawn ^^^ x }
  | .Knight => { b with knight := b.knight ^^^ x }
  | .Bishop => { b with bishop := b.bishop ^^^ x }
  | .Rook => { b with rook := b.rook ^^^ x }
  | .Queen => { b with queen := b.queen ^^^ x }
  | .King => { b with king := b.king ^^^ x }

/-- `position.rs`: `struct Position`. `pieces: [Bitboard; 2]` is split into
`pieces0` (Black) and `pieces1` (White), and `king_sq: [Square; 2]` into
`king_sq0` (Black) and `king_sq1` (White). -/
structure Position where
  color : Nat
  bb : BB
  pieces0 : Nat
  pieces1 : Nat
  white_to_move : Bool
  fullmove : Nat
  details : IrreversibleDetails
  all_pieces : Nat
  king_sq0 : Nat
  king_sq1 : Nat
deriving DecidableEq, Repr

namespace Position

def pawns (p : Position) : Nat := p.bb.pawn
def knights (p : Position) : Nat := p.bb.knight
def bishops (p : Position) : Nat := p.bb.bishop
def rooks (p : Position) : Nat := p.bb.rook
def queens (p : Position) : Nat := p.bb.queen
def kings (p : Position) : Nat := p.bb.king

/-- `position.rs`: `king_sq(white)`. -/
def king_sq (p : Position) (white : Bool) : Nat := if white then p.king_sq1 else p.king_sq0

def white_pieces (p : Position) : Nat := p.pieces1
def black_pieces (p : Position) : Nat := p.pieces0

/-- `position.rs`: `us(white) = pieces[white as usize]`. -/
def us (p : Position) (white : Bool) : Nat := if white then p.pieces1 else p.pieces0

/-- `position.rs`: `them(white) = pieces[1 - white as usize]`. -/
def them (p : Position) (white : Bool) : Nat := if white then p.pieces0 else p.pieces1

/-- `position.rs`: `find_piece`. -/
def find_piece (p : Position) (at_ : Nat) : Option Piece :=
  if testB p.pawns at_ then some .Pawn
  else if testB p.knights at_ then some .Knight
  else if testB p.bishops at_ then some .Bishop
  else if testB p.rooks at_ then some .Rook
  else if testB p.queens at_ then some .Queen
  else if testB p.kings at_ then some .King
  else none

/-- The en-passant condition of `make_move` (`position.rs` lines 447-450): a pawn
stands on `mov.from` on the double-step start rank, `mov.to` is on the double-step
target rank, and an enemy pawn is horizontally adjacent to `mov.to`. -/
def epCondP (p : Position) (m : Move) : Bool :=
  let w := p.white_to_move
  let themBB := p.them w
  let rank2 := if w then RANK_2 else RANK_7
  let rank4 := if w then RANK_4 else RANK_5
  testB (p.pawns &&& rank2) m.fromSq && testB rank4 m.toSq &&
    testB (leftB 1 (themBB &&& p.pawns) ||| rightB 1 (themBB &&& p.pawns)) m.toSq

/-- A conditional castling-bit clear `if cond { c &= !k }`. -/
def clearIf (cond : Prop) [Decidable cond] (k c : Nat) : Nat :=
  if cond then c &&& notB8 k else c

/-- The castling mask produced by `make_move` (`position.rs` lines 504-527):
castling bits are only ever cleared, by king moves and by moves from or to the
four corner squares a1 (0), h1 (7), a8 (56), h8 (63). -/
def makeCastling (p : Position) (m : Move) : Nat :=
  clearIf (m.fromSq = 63 ∨ m.toSq = 63) CASTLE_BLACK_KSIDE
    (clearIf (m.fromSq = 56 ∨ m.toSq = 56) CASTLE_BLACK_QSIDE
      (clearIf (m.fromSq = 7 ∨ m.toSq = 7) CASTLE_WHITE_KSIDE
        (clearIf (m.fromSq = 0 ∨ m.toSq = 0) CASTLE_WHITE_QSIDE
          (clearIf (m.piece = .King)
            (if p.white_to_move then CASTLE_WHITE_KSIDE ||| CASTLE_WHITE_QSIDE
             else CASTLE_BLACK_KSIDE ||| CASTLE_BLACK_QSIDE)
            p.details.castling))))

/-- `position.rs`: `make_move`. Each conditional `^=` of the source is transcribed
as a conditional xor; the update order of the source is preserved field by field. -/
def make_move (p : Position) (m : Move) : Position :=
  let w := p.white_to_move
  -- en passant file (lines 446-452)
  let ep1 : Nat := if epCondP p m then sqFile m.fromSq else 255
  -- halfmove clock (lines 454, 459, 482); `u8` wrap-around modelled by `% 256`
  let half1 := (p.details.halfmove + 1) % 256
  let half2 := if m.captured.isSome then 0 else half1
  let half3 := if m.piece = .Pawn then 0 else half2
  -- piece leaves `from` (line 456)
  let bb1 := p.bb.xorAt m.piece (bitB m.fromSq)
  -- captured piece removal (lines 458-472)
  let bb2 :=
    match m.captured with
    | some c =>
      if m.en_passant then bb1.xorAt .Pawn (bitB (sqBwd w 1 m.toSq))
      else bb1.xorAt c (bitB m.toSq)
    | none => bb1
  let color2 :=
    match m.captured with
    | some _ =>
      if m.en_passant then
        (if w then p.color else p.color ^^^ bitB (sqBwd w 1 m.toSq))
      else
        (if w then p.color else p.color ^^^ bitB m.toSq)
    | none => p.color
  -- piece (or promotion piece) arrives on `to` (lines 474-478)
  let bb3 :=
    match m.promoted with
    | some pc => bb2.xorAt pc (bitB m.toSq)
    | none => bb2.xorAt m.piece (bitB m.toSq)
  -- king move: king square, castling rook shuffle (lines 484-508)
  let kside := sqRight 2 m.fromSq = m.toSq
  let qside := sqLeft 2 m.fromSq = m.toSq
  let bb4 :=
    if m.piece = .King then
      if kside then (bb3.xorAt .Rook (bitB (sqRight 1 m.toSq))).xorAt .Rook (bitB (sqLeft 1 m.toSq))
      else if qside then (bb3.xorAt .Rook (bitB (sqLeft 2 m.toSq))).xorAt .Rook (bitB (sqRight 1 m.toSq))
      else bb3
    else bb3
  let color3 :=
    if m.piece = .King then
      if kside then
        (if w then color2 ^^^ bitB (sqRight 1 m.toSq) ^^^ bitB (sqLeft 1 m.toSq) else color2)
      else if qside then
        (if w then color2 ^^^ bitB (sqLeft 2 m.toSq) ^^^ bitB (sqRight 1 m.toSq) else color2)
      else color2
    else color2
  let ksq0 := if m.piece = .King ∧ w = false then m.toSq else p.king_sq0
  let ksq1 := if m.piece = .King ∧ w = true then m.toSq else p.king_sq1
  -- corner-square castling clears are part of `makeCastling`
  -- mover color bits, fullmove (lines 529-534)
  let color4 := if w then color3 ^^^ bitB m.toSq ^^^ bitB m.fromSq else color3
  let fullmove1 := if w then p.fullmove else p.fullmove + 1
  -- side to move, occupancy recomputation (lines 536-544)
  let all1 := bb4.pawn ||| bb4.knight ||| bb4.bishop ||| bb4.rook ||| bb4.queen ||| bb4.king
  { color := color4
    bb := bb4
    pieces0 := all1 &&& notB color4
    pieces1 := all1 &&& color4
    white_to_move := !w
    fullmove := fullmove1
    details := { halfmove := half3, en_passant := ep1, castling := makeCastling p m }
    all_pieces := all1
    king_sq0 := ksq0
    king_sq1 := ksq1 }

/-- `position.rs`: `unmake_move`. -/
def unmake_move (p : Position) (m : Move) (d : IrreversibleDetails) : Position :=
  let umw := !p.white_to_move
  -- mover color bits, fullmove (lines 550-558)
  let color1 := if umw then p.color ^^^ bitB m.fromSq ^^^ bitB m.toSq else p.color
  let fullmove1 := if umw then p.fullmove else p.fullmove - 1
  -- piece returns to `from` (line 560)
  let bb1 := p.bb.xorAt m.piece (bitB m.fromSq)
  -- captured piece restoration (lines 562-574)
  let bb2 :=
    match m.captured with
    | some c =>
      if m.en_passant then bb1.xorAt .Pawn (bitB (sqBwd umw 1 m.toSq))
      else bb1.xorAt c (bitB m.toSq)
    | none => bb1
  let color2 :=
    match m.captured with
    | some _ =>
      if m.en_passant then
        (if umw then color1 else color1 ^^^ bitB (sqBwd umw 1 m.toSq))
      else
        (if umw then color1 else color1 ^^^ bitB m.toSq)
    | none => color1
  -- piece (or promotion piece) leaves `to` (lines 576-580)
  let bb3 :=
    match m.promoted with
    | some pc => bb2.xorAt pc (bitB m.toSq)
    | none => bb2.xorAt m.piece (bitB m.toSq)
  -- king move restoration (lines 582-601)
  let kside := sqRight 2 m.fromSq = m.toSq
  let qside := sqLeft 2 m.fromSq = m.toSq
  let bb4 :=
    if m.piece = .King then
      if kside then (bb3.xorAt .Rook (bitB (sqRight 1 m.toSq))).xorAt .Rook (bitB (sqLeft 1 m.toSq))
      else if qside then (bb3.xorAt .Rook (bitB (sqLeft 2 m.toSq))).xorAt .Rook (bitB (sqRight 1 m.toSq))
      else bb3
    else bb3
  let color3 :=
    if m.piece = .King then
      if kside then
        (if umw then color2 ^^^ bitB (sqRight 1 m.toSq) ^^^ bitB (sqLeft 1 m.toSq) else color2)
      else if qside then
        (if umw then color2 ^^^ bitB (sqLeft 2 m.toSq) ^^^ bitB (sqRight 1 m.toSq) else color2)
      else color2
    else color2
  let ksq0 := if m.piece = .King ∧ umw = false then m.fromSq else p.king_sq0
  let ksq1 := if m.piece = .King ∧ umw = true then m.fromSq else p.king_sq1
  -- occupancy recomputation (lines 603-610)
  let all1 := bb4.pawn ||| bb4.knight ||| bb4.bishop ||| bb4.rook ||| bb4.queen ||| bb4.king
  { color := color3
    bb := bb4
    pieces0 := all1 &&& notB color3
    pieces1 := all1 &&& color3
    white_to_move := umw
    fullmove := fullmove1
    details := d
    all_pieces := all1
    king_sq0 := ksq0
    king_sq1 := ksq1 }

end Position

/-! ### Helper lemmas: xor cancellation and `BB` projections -/

theorem xor_lc (a b c : Nat) : a ^^^ (b ^^^ c) = b ^^^ (a ^^^ c) := by
  rw [← Nat.xor_assoc, Nat.xor_comm a b, Nat.xor_assoc]

theorem xor_cl (a b : Nat) : a ^^^ (a ^^^ b) = b := by
  rw [← Nat.xor_assoc, Nat.xor_self, Nat.zero_xor]

attribute [ext] BB Position IrreversibleDetails

theorem BB.xorAt_pawn (b : BB) (p : Piece) (x : Nat) :
    (b.xorAt p x).pawn = b.pawn ^^^ (if p = .Pawn then x else 0) := by
  cases p <;> simp [BB.xorAt]

theorem BB.xorAt_knight (b : BB) (p : Piece) (x : Nat) :
    (b.xorAt p x).knight = b.knight ^^^ (if p = .Knight then x else 0) := by
  cases p <;> simp [BB.xorAt]

theorem BB.xorAt_bishop (b : BB) (p : Piece) (x : Nat) :
    (b.xorAt p x).bishop = b.bishop ^^^ (if p = .Bishop then x else 0) := by
  cases p <;> simp [BB.xorAt]

theorem BB.xorAt_rook (b : BB) (p : Piece) (x : Nat) :
    (b.xorAt p x).rook = b.rook ^^^ (if p = .Rook then x else 0) := by
  cases p <;> simp [BB.xorAt]

theorem BB.xorAt_queen (b : BB) (p : Piece) (x : Nat) :
    (b.xorAt p x).queen = b.queen ^^^ (if p = .Queen then x else 0) := by
  cases p <;> simp [BB.xorAt]

theorem BB.xorAt_king (b : BB) (p : Piece) (x : Nat) :
    (b.xorAt p x).king = b.king ^^^ (if p = .King then x else 0) := by
  cases p <;> simp [BB.xorAt]

/-! ### C10: make_move never sets a castling bit -/

theorem and_absorb_step {x pre : Nat} (y : Nat) (h : x &&& pre = x) :
    (x &&& y) &&& pre = x &&& y := by
  rw [Nat.and_assoc, Nat.and_comm y pre, ← Nat.and_assoc, h]

theorem clearIf_absorb (cond : Prop) [Decidable cond] (k : Nat) {c pre : Nat}
    (h : c &&& pre = c) : Position.clearIf cond k c &&& pre = Position.clearIf cond k c := by
  unfold Position.clearIf
  split
  · exact and_absorb_step _ h
  · exact h

theorem makeCastling_and_self (p : Position) (m : Move) :
    Position.makeCastling p m &&& p.details.castling = Position.makeCastling p m := by
  unfold Position.makeCastling
  exact clearIf_absorb _ _ (clearIf_absorb _ _ (clearIf_absorb _ _ (clearIf_absorb _ _
    (clearIf_absorb _ _ (Nat.and_self _)))))

/-- C10: for every position and move, the castling mask after `make_move` is a
bitwise subset of the castling mask before the call: `make_move` can clear
castling-right bits but never sets one. -/
theorem c10_castling_monotone (p : Position) (m : Move) :
    (p.make_move m).details.castling &&& p.details.castling
      = (p.make_move m).details.castling := by
  have h : (p.make_move m).details.castling = Position.makeCastling p m := rfl
  rw [h]
  exact makeCastling_and_self p m

/-! ### Position make/unmake round trip (towards C1)

Both `make_move` and `unmake_move` change the `color` word and each per-piece
bitboard by xor with a mask that depends only on the move and on the colour of
the side that made the move. The two masks coincide, which makes the round trip
an xor cancellation. -/

/-- The total xor applied to `Position.color` by making (equivalently, unmaking)
move `m` played by the side `w` (`true` = White). -/
def colorDelta (w : Bool) (m : Move) : Nat :=
  (match m.captured with
   | some _ =>
     if m.en_passant then (if w then 0 else bitB (sqBwd w 1 m.toSq))
     else (if w then 0 else bitB m.toSq)
   | none => 0)
  ^^^ (if m.piece = .King then
        (if sqRight 2 m.fromSq = m.toSq then
          (if w then bitB (sqRight 1 m.toSq) ^^^ bitB (sqLeft 1 m.toSq) else 0)
         else if sqLeft 2 m.fromSq = m.toSq then
          (if w then bitB (sqLeft 2 m.toSq) ^^^ bitB (sqRight 1 m.toSq) else 0)
         else 0)
       else 0)
  ^^^ (if w then bitB m.toSq ^^^ bitB m.fromSq else 0)

/-- The total xor applied to the bitboard of piece kind `f` by making
(equivalently, unmaking) move `m` played by side `w`. -/
def bbDelta (w : Bool) (m : Move) (f : Piece) : Nat :=
  (if m.piece = f then bitB m.fromSq else 0)
  ^^^ (match m.captured with
       | some c =>
         if m.en_passant then (if f = .Pawn then bitB (sqBwd w 1 m.toSq) else 0)
         else (if c = f then bitB m.toSq else 0)
       | none => 0)
  ^^^ (match m.promoted with
       | some pc => if pc = f then bitB m.toSq else 0
       | none => if m.piece = f then bitB m.toSq else 0)
  ^^^ (if m.piece = .King then
        (if sqRight 2 m.fromSq = m.toSq then
          (if f = .Rook then bitB (sqRight 1 m.toSq) ^^^ bitB (sqLeft 1 m.toSq) else 0)
         else if sqLeft 2 m.fromSq = m.toSq then
          (if f = .Rook then bitB (sqLeft 2 m.toSq) ^^^ bitB (sqRight 1 m.toSq) else 0)
         else 0)
       else 0)

set_option maxHeartbeats 8000000 in
theorem make_move_color (p : Position) (m : Move) :
    (p.make_move m).color = p.color ^^^ colorDelta p.white_to_move m := by
  obtain ⟨mf, mt, mpc, mcap, mpr, mep⟩ := m
  rcases mcap with _ | c <;> cases mep <;> cases hw : p.white_to_move <;>
  · simp only [Position.make_move, colorDelta, hw]
    split_ifs <;> simp [Nat.xor_assoc, Nat.xor_comm, xor_lc, xor_cl]

set_option maxHeartbeats 8000000 in
theorem unmake_move_color (q : Position) (m : Move) (d : IrreversibleDetails) :
    (q.unmake_move m d).color = q.color ^^^ colorDelta (!q.white_to_move) m := by
  obtain ⟨mf, mt, mpc, mcap, mpr, mep⟩ := m
  rcases mcap with _ | c <;> cases mep <;> cases hw : q.white_to_move <;>
  · simp only [Position.unmake_move, colorDelta, hw]
    split_ifs <;> simp [Nat.xor_assoc, Nat.xor_comm, xor_lc, xor_cl]

set_option maxHeartbeats 8000000 in
theorem make_move_bb_get (p : Position) (m : Move) (f : Piece) :
    ((p.make_move m).bb).get f = p.bb.get f ^^^ bbDelta p.white_to_move m f := by
  obtain ⟨mf, mt, mpc, mcap, mpr, mep⟩ := m
  rcases mcap with _ | c <;> rcases mpr with _ | pc <;> cases mep <;> cases f <;>
  · simp only [Position.make_move, bbDelta, BB.get, BB.xorAt_pawn, BB.xorAt_knight,
      BB.xorAt_bishop, BB.xorAt_rook, BB.xorAt_queen, BB.xorAt_king,
      apply_ite BB.pawn, apply_ite BB.knight, apply_ite BB.bishop,
      apply_ite BB.rook, apply_ite BB.queen, apply_ite BB.king]
    split_ifs <;> simp_all [Nat.xor_assoc, Nat.xor_comm, xor_lc, xor_cl]

set_option maxHeartbeats 8000000 in
theorem unmake_move_bb_get (q : Position) (m : Move) (d : IrreversibleDetails) (f : Piece) :
    ((q.unmake_move m d).bb).get f = q.bb.get f ^^^ bbDelta (!q.white_to_move) m f := by
  obtain ⟨mf, mt, mpc, mcap, mpr, mep⟩ := m
  rcases mcap with _ | c <;> rcases mpr with _ | pc <;> cases mep <;> cases f <;>
  · simp only [Position.unmake_move, bbDelta, BB.get, BB.xorAt_pawn, BB.xorAt_knight,
      BB.xorAt_bishop, BB.xorAt_rook, BB.xorAt_queen, BB.xorAt_king,
      apply_ite BB.pawn, apply_ite BB.knight, apply_ite BB.bishop,
      apply_ite BB.rook, apply_ite BB.queen, apply_ite BB.king]
    split_ifs <;> simp_all [Nat.xor_assoc, Nat.xor_comm, xor_lc, xor_cl]

theorem color_round (p : Position) (m : Move) :
    ((p.make_move m).unmake_move m p.details).color = p.color := by
  rw [unmake_move_color, make_move_color]
  have hw : (p.make_move m).white_to_move = !p.white_to_move := rfl
  rw [hw, Bool.not_not, Nat.xor_assoc, Nat.xor_self, Nat.xor_zero]

theorem bb_round (p : Position) (m : Move) :
    ((p.make_move m).unmake_move m p.details).bb = p.bb := by
  ext <;>
  · have h1 := unmake_move_bb_get (p.make_move m) m p.details
    have h2 := make_move_bb_get p m
    have hw : (p.make_move m).white_to_move = !p.white_to_move := rfl
    first
    | (have e1 := h1 .Pawn; have e2 := h2 .Pawn
       simp only [BB.get] at e1 e2
       rw [e1, e2, hw, Bool.not_not, Nat.xor_assoc, Nat.xor_self, Nat.xor_zero])
    | (have e1 := h1 .Knight; have e2 := h2 .Knight
       simp only [BB.get] at e1 e2
       rw [e1, e2, hw, Bool.not_not, Nat.xor_assoc, Nat.xor_self, Nat.xor_zero])
    | (have e1 := h1 .Bishop; have e2 := h2 .Bishop
       simp only [BB.get] at e1 e2
       rw [e1, e2, hw, Bool.not_not, Nat.xor_assoc, Nat.xor_self, Nat.xor_zero])
    | (have e1 := h1 .Rook; have e2 := h2 .Rook
       simp only [BB.get] at e1 e2
       rw [e1, e2, hw, Bool.not_not, Nat.xor_assoc, Nat.xor_self, Nat.xor_zero])
    | (have e1 := h1 .Queen; have e2 := h2 .Queen
       simp only [BB.get] at e1 e2
       rw [e1, e2, hw, Bool.not_not, Nat.xor_assoc, Nat.xor_self, Nat.xor_zero])
    | (have e1 := h1 .King; have e2 := h2 .King
       simp only [BB.get] at e1 e2
       rw [e1, e2, hw, Bool.not_not, Nat.xor_assoc, Nat.xor_self, Nat.xor_zero])

/-! Projection lemmas for the remaining `Position` fields, all definitional. -/

theorem make_move_wtm (p : Position) (m : Move) :
    (p.make_move m).white_to_move = !p.white_to_move := rfl

theorem make_move_fullmove (p : Position) (m : Move) :
    (p.make_move m).fullmove = if p.white_to_move then p.fullmove else p.fullmove + 1 := rfl

theorem make_move_ep (p : Position) (m : Move) :
    (p.make_move m).details.en_passant
      = if Position.epCondP p m then sqFile m.fromSq else 255 := rfl

theorem make_move_castling (p : Position) (m : Move) :
    (p.make_move m).details.castling = Position.makeCastling p m := rfl

theorem make_move_ksq0 (p : Position) (m : Move) :
    (p.make_move m).king_sq0
      = if m.piece = .King ∧ p.white_to_move = false then m.toSq else p.king_sq0 := rfl

theorem make_move_ksq1 (p : Position) (m : Move) :
    (p.make_move m).king_sq1
      = if m.piece = .King ∧ p.white_to_move = true then m.toSq else p.king_sq1 := rfl

theorem unmake_move_wtm (q : Position) (m : Move) (d : IrreversibleDetails) :
    (q.unmake_move m d).white_to_move = !q.white_to_move := rfl

theorem unmake_move_fullmove (q : Position) (m : Move) (d : IrreversibleDetails) :
    (q.unmake_move m d).fullmove
      = if !q.white_to_move then q.fullmove else q.fullmove - 1 := rfl

theorem unmake_move_details (q : Position) (m : Move) (d : IrreversibleDetails) :
    (q.unmake_move m d).details = d := rfl

theorem unmake_move_ksq0 (q : Position) (m : Move) (d : IrreversibleDetails) :
    (q.unmake_move m d).king_sq0
      = if m.piece = .King ∧ (!q.white_to_move) = false then m.fromSq else q.king_sq0 := rfl

theorem unmake_move_ksq1 (q : Position) (m : Move) (d : IrreversibleDetails) :
    (q.unmake_move m d).king_sq1
      = if m.piece = .King ∧ (!q.white_to_move) = true then m.fromSq else q.king_sq1 := rfl

theorem unmake_move_all (q : Position) (m : Move) (d : IrreversibleDetails) :
    (q.unmake_move m d).all_pieces
      = (q.unmake_move m d).bb.pawn ||| (q.unmake_move m d).bb.knight
        ||| (q.unmake_move m d).bb.bishop ||| (q.unmake_move m d).bb.rook
        ||| (q.unmake_move m d).bb.queen ||| (q.unmake_move m d).bb.king := rfl

theorem unmake_move_pieces1 (q : Position) (m : Move) (d : IrreversibleDetails) :
    (q.unmake_move m d).pieces1
      = (q.unmake_move m d).all_pieces &&& (q.unmake_move m d).color := rfl

theorem unmake_move_pieces0 (q : Position) (m : Move) (d : IrreversibleDetails) :
    (q.unmake_move m d).pieces0
      = (q.unmake_move m d).all_pieces &&& notB (q.unmake_move m d).color := rfl

/-- `make_move` followed by `unmake_move` with the saved details restores the
`Position` bit-for-bit, under the structural invariants of a reachable position
(the redundant fields `all_pieces`, `pieces` and `king_sq` agree with the
bitboards). -/
theorem position_make_unmake (p : Position) (m : Move)
    (hall : p.all_pieces = p.bb.pawn ||| p.bb.knight ||| p.bb.bishop ||| p.bb.rook
        ||| p.bb.queen ||| p.bb.king)
    (hp1 : p.pieces1 = p.all_pieces &&& p.color)
    (hp0 : p.pieces0 = p.all_pieces &&& notB p.color)
    (hking : m.piece = .King → p.king_sq p.white_to_move = m.fromSq) :
    (p.make_move m).unmake_move m p.details = p := by
  have hbb := bb_round p m
  have hcol := color_round p m
  have hallr : ((p.make_move m).unmake_move m p.details).all_pieces = p.all_pieces := by
    rw [unmake_move_all, hbb, hall]
  refine Position.ext hcol hbb ?_ ?_ ?_ ?_ ?_ hallr ?_ ?_
  · rw [unmake_move_pieces0, hallr, hcol, hp0]
  · rw [unmake_move_pieces1, hallr, hcol, hp1]
  · rw [unmake_move_wtm, make_move_wtm, Bool.not_not]
  · rw [unmake_move_fullmove, make_move_wtm, Bool.not_not, make_move_fullmove]
    cases hw : p.white_to_move <;> simp
  · rw [unmake_move_details]
  · rw [unmake_move_ksq0, make_move_wtm, Bool.not_not, make_move_ksq0]
    by_cases hk : m.piece = .King
    · cases hw : p.white_to_move <;>
        simp_all [Position.king_sq]
    · simp [hk]
  · rw [unmake_move_ksq1, make_move_wtm, Bool.not_not, make_move_ksq1]
    by_cases hk : m.piece = .King
    · cases hw : p.white_to_move <;>
        simp_all [Position.king_sq]
    · simp [hk]

/-! ## Zobrist hasher (`hash.rs`) -/

/-- `hash.rs`: `struct Hasher`. The random key tables are modelled as functions;
the round-trip property holds for arbitrary keys. `colorK` etc. carry a `K`
suffix to avoid clashing with the `Position` field names. -/
structure Hasher where
  colorK : Nat → Nat
  pawnsK : Nat → Nat
  knightsK : Nat → Nat
  bishopsK : Nat → Nat
  rooksK : Nat → Nat
  queensK : Nat → Nat
  kingsK : Nat → Nat
  white_to_moveK : Nat
  en_passantK : Nat → Nat
  castleK : Nat → Nat
  hash : Nat

attribute [ext] Hasher

/-- The en-passant condition of `Hasher::make_move` (`hash.rs` lines 122-127); it
tests the same squares as `Position::make_move` with the or of the two adjacency
tests split into a boolean disjunction. -/
def epCondH (pos : Position) (m : Move) : Bool :=
  let w := pos.white_to_move
  let themBB := if w then pos.black_pieces else pos.white_pieces
  let rank2 := if w then RANK_2 else RANK_7
  let rank4 := if w then RANK_4 else RANK_5
  testB (pos.pawns &&& rank2) m.fromSq && testB rank4 m.toSq &&
    (testB (rightB 1 (pos.pawns &&& themBB)) m.toSq
      || testB (leftB 1 (pos.pawns &&& themBB)) m.toSq)

/-- The updated castling mask computed inside `Hasher::make_move`
(`hash.rs` lines 129, 220-242). -/
def hashCastling (pos : Position) (m : Move) : Nat :=
  Position.clearIf (m.fromSq = 63 ∨ m.toSq = 63) CASTLE_BLACK_KSIDE
    (Position.clearIf (m.fromSq = 56 ∨ m.toSq = 56) CASTLE_BLACK_QSIDE
      (Position.clearIf (m.fromSq = 7 ∨ m.toSq = 7) CASTLE_WHITE_KSIDE
        (Position.clearIf (m.fromSq = 0 ∨ m.toSq = 0) CASTLE_WHITE_QSIDE
          (if m.piece = .King then
            (if pos.white_to_move then
              pos.details.castling &&& (CASTLE_BLACK_KSIDE ||| CASTLE_BLACK_QSIDE)
             else pos.details.castling &&& (CASTLE_WHITE_KSIDE ||| CASTLE_WHITE_QSIDE))
           else pos.details.castling))))

/-- Keys xored for the captured piece by `Hasher::make_move` (`hash.rs` lines 132-156). -/
def capKeysM (h : Hasher) (w : Bool) (m : Move) : Nat :=
  match m.captured with
  | some .Pawn =>
    if m.en_passant then
      h.pawnsK (sqBwd w 1 m.toSq) ^^^ (if w = false then h.colorK (sqBwd w 1 m.toSq) else 0)
    else h.pawnsK m.toSq
  | some .Knight => h.knightsK m.toSq
  | some .Bishop => h.bishopsK m.toSq
  | some .Rook => h.rooksK m.toSq
  | some .Queen => h.queensK m.toSq
  | _ => 0

/-- Keys xored for the moving piece by `Hasher::make_move` (`hash.rs` lines 158-226);
the `Some(x) => panic!` arm for an invalid promotion contributes nothing. -/
def pieceKeysM (h : Hasher) (w : Bool) (m : Move) : Nat :=
  match m.piece with
  | .Pawn =>
    h.pawnsK m.fromSq ^^^
      (match m.promoted with
       | some .Queen => h.queensK m.toSq
       | some .Knight => h.knightsK m.toSq
       | some .Rook => h.rooksK m.toSq
       | some .Bishop => h.bishopsK m.toSq
       | some _ => 0
       | none => h.pawnsK m.toSq)
  | .Knight => h.knightsK m.fromSq ^^^ h.knightsK m.toSq
  | .Bishop => h.bishopsK m.fromSq ^^^ h.bishopsK m.toSq
  | .Rook => h.rooksK m.fromSq ^^^ h.rooksK m.toSq
  | .Queen => h.queensK m.fromSq ^^^ h.queensK m.toSq
  | .King =>
    (if m.toSq = m.fromSq + 2 then
      h.rooksK (sqRight 1 m.toSq) ^^^ h.rooksK (sqLeft 1 m.toSq)
        ^^^ (if w then h.colorK (sqRight 1 m.toSq) ^^^ h.colorK (sqLeft 1 m.toSq) else 0)
     else if m.fromSq = m.toSq + 2 then
      h.rooksK (sqLeft 2 m.toSq) ^^^ h.rooksK (sqRight 1 m.toSq)
        ^^^ (if w then h.colorK (sqLeft 2 m.toSq) ^^^ h.colorK (sqRight 1 m.toSq) else 0)
     else 0)
    ^^^ h.kingsK m.fromSq ^^^ h.kingsK m.toSq

/-- Colour keys xored for the mover by `Hasher::make_move` (`hash.rs` lines 244-251);
`colorbb` is the pre-move colour bitboard. -/
def moverColorM (h : Hasher) (colorbb : Nat) (w : Bool) (m : Move) : Nat :=
  if w then h.colorK m.toSq ^^^ h.colorK m.fromSq
  else (if testB colorbb m.toSq then h.colorK m.toSq else 0)

/-- `hash.rs`: `Hasher::make_move` (`pos` is the position before the move). -/
def Hasher.make_move (h : Hasher) (pos : Position) (m : Move) : Hasher :=
  let w := pos.white_to_move
  let h1 := h.hash ^^^
    (if pos.details.en_passant ≠ 255 then h.en_passantK pos.details.en_passant else 0)
  let h2 := h1 ^^^ (if epCondH pos m then h.en_passantK (sqFile m.fromSq) else 0)
  let h3 := h2 ^^^ h.castleK pos.details.castling
  let h4 := h3 ^^^ capKeysM h w m
  let h5 := h4 ^^^ pieceKeysM h w m
  let h6 := h5 ^^^ moverColorM h pos.color w m
  let h7 := h6 ^^^ h.castleK (hashCastling pos m)
  let h8 := h7 ^^^ h.white_to_moveK
  { h with hash := h8 }

/-- Keys xored for the moving piece by `Hasher::unmake_move` (`hash.rs` lines 280-342).
`umw` is `unmaking_white_move`. -/
def pieceKeysU (h : Hasher) (umw : Bool) (m : Move) : Nat :=
  match m.piece with
  | .Pawn =>
    h.pawnsK m.fromSq ^^^
      (match m.promoted with
       | some .Queen => h.queensK m.toSq
       | some .Knight => h.knightsK m.toSq
       | some .Rook => h.rooksK m.toSq
       | some .Bishop => h.bishopsK m.toSq
       | some _ => 0
       | none => h.pawnsK m.toSq)
  | .Knight => h.knightsK m.toSq ^^^ h.knightsK m.fromSq
  | .Bishop => h.bishopsK m.toSq ^^^ h.bishopsK m.fromSq
  | .Rook => h.rooksK m.toSq ^^^ h.rooksK m.fromSq
  | .Queen => h.queensK m.toSq ^^^ h.queensK m.fromSq
  | .King =>
    h.kingsK m.toSq ^^^ h.kingsK m.fromSq ^^^
    (if m.toSq = m.fromSq + 2 then
      h.rooksK (sqRight 1 m.toSq) ^^^ h.rooksK (sqLeft 1 m.toSq)
        ^^^ (if umw then h.colorK (sqRight 1 m.toSq) ^^^ h.colorK (sqLeft 1 m.toSq) else 0)
     else if m.fromSq = m.toSq + 2 then
      h.rooksK (sqLeft 2 m.toSq) ^^^ h.rooksK (sqRight 1 m.toSq)
        ^^^ (if umw then h.colorK (sqLeft 2 m.toSq) ^^^ h.colorK (sqRight 1 m.toSq) else 0)
     else 0)

/-- Keys xored for the captured piece by `Hasher::unmake_move` (`hash.rs` lines 344-383);
`postw` is the side to move of the post-move position (`pos.white_to_move`). -/
def capKeysU (h : Hasher) (postw : Bool) (m : Move) : Nat :=
  let umw := !postw
  match m.captured with
  | some .Pawn =>
    if m.en_passant then
      h.pawnsK (sqBwd (!postw) 1 m.toSq)
        ^^^ (if umw = false then h.colorK (sqBwd (!postw) 1 m.toSq) else 0)
    else h.pawnsK m.toSq ^^^ (if umw = false then h.colorK m.toSq else 0)
  | some .Knight => h.knightsK m.toSq ^^^ (if umw = false then h.colorK m.toSq else 0)
  | some .Bishop => h.bishopsK m.toSq ^^^ (if umw = false then h.colorK m.toSq else 0)
  | some .Rook => h.rooksK m.toSq ^^^ (if umw = false then h.colorK m.toSq else 0)
  | some .Queen => h.queensK m.toSq ^^^ (if umw = false then h.colorK m.toSq else 0)
  | _ => 0

/-- Colour keys xored for the mover by `Hasher::unmake_move` (`hash.rs` lines 271-278);
`colorbb` is the post-move colour bitboard. -/
def moverColorU (h : Hasher) (colorbb : Nat) (umw : Bool) (m : Move) : Nat :=
  if umw then h.colorK m.fromSq ^^^ h.colorK m.toSq
  else (if testB colorbb m.fromSq then h.colorK m.fromSq else 0)

/-- `hash.rs`: `Hasher::unmake_move` (`pos` is the position after the move, before
it is unmade). -/
def Hasher.unmake_move (h : Hasher) (pos : Position) (m : Move)
    (d : IrreversibleDetails) : Hasher :=
  let umw := !pos.white_to_move
  let h1 := h.hash ^^^ h.white_to_moveK
  let h2 := h1 ^^^
    (if pos.details.en_passant ≠ 255 then h.en_passantK pos.details.en_passant else 0)
  let h3 := h2 ^^^ (if d.en_passant ≠ 255 then h.en_passantK d.en_passant else 0)
  let h4 := h3 ^^^ h.castleK pos.details.castling ^^^ h.castleK d.castling
  let h5 := h4 ^^^ moverColorU h pos.color umw m
  let h6 := h5 ^^^ pieceKeysU h umw m
  let h7 := h6 ^^^ capKeysU h pos.white_to_move m
  { h with hash := h7 }

/-! ## Evaluation (`eval.rs`) -/

/-- `eval.rs`: `type Score = i16`, modelled as `Int` (the scores reached in these
computations stay far inside the `i16` range). -/
def MATE_SCORE : Int := 20000
def PAWN_SCORE : Int := 100
def KNIGHT_SCORE : Int := 300
def BISHOP_SCORE : Int := 320
def ROOK_SCORE : Int := 500
def QUEEN_SCORE : Int := 1000

/-- `eval.rs`: `struct Material`. Piece counts are `usize`, modelled as `Nat`. -/
structure Material where
  white_pawns : Nat
  white_knights : Nat
  white_bishops : Nat
  white_rooks : Nat
  white_queens : Nat
  black_pawns : Nat
  black_knights : Nat
  black_bishops : Nat
  black_rooks : Nat
  black_queens : Nat
deriving DecidableEq, Repr

/-- `eval.rs`: `struct Positional` (pawns per file, both sides). -/
structure Positional where
  white_pawns_per_file : List Nat
  black_pawns_per_file : List Nat
deriving DecidableEq, Repr

/-- `eval.rs`: `struct PawnHashEntry`. -/
structure PawnHashEntry where
  pawns : Nat
  color : Nat
  mg : Int
  eg : Int
deriving DecidableEq, Repr

/-- `eval.rs`: default `PawnHashEntry`. -/
def PawnHashEntry.default : PawnHashEntry := ⟨0, 0, 0, 0⟩

def PAWN_TABLE_NUM_ENTRIES : Nat := 2 * 1024

/-- `eval.rs`: `struct Eval`. The `pst: [Score; 2]` array is split into `pst0`
(Black) and `pst1` (White). -/
structure Eval where
  material : Material
  pst0 : Int
  pst1 : Int
  positional : Positional
  pawn_table : List PawnHashEntry
deriving DecidableEq, Repr

attribute [ext] Material Positional PawnHashEntry Eval

/-- `eval.rs`: `PAWN_PST`. -/
def PAWN_PST : List Int :=
  [ 24,  28,  35,  50,  50,  35,  28,  24,
    16,  23,  27,  34,  34,  27,  23,  16,
     5,   7,  11,  20,  20,  11,   7,   5,
   -12,  -9,  -2,  11,  11,  -2,  -9, -12,
   -21, -20, -12,   2,   2, -12, -20, -21,
   -17, -14, -14,  -6,  -6, -14, -14, -17,
   -21, -20, -18, -15, -15, -18, -20, -21,
     0,   0,   0,   0,   0,   0,   0,   0]

/-- `eval.rs`: `KNIGHT_PST`. -/
def KNIGHT_PST : List Int :=
  [-10, -10, -10, -10, -10, -10, -10, -10,
   -10,   0,  10,  15,  15,  10,   0, -10,
   -10,   5,  15,  20,  20,  15,   5, -10,
   -10,   5,  15,  20,  20,  15,   5, -10,
   -10,   0,  15,  20,  20,  15,   0, -10,
   -10,   0,  10,  10,  10,  10,   0, -10,
   -10,   0,   0,   5,   5,   0,   0, -10,
   -10, -10, -10, -10, -10, -10, -10, -10]

/-- `eval.rs`: `BISHOP_PST`. -/
def BISHOP_PST : List Int :=
  [-10, -10, -10, -10, -10, -10, -10, -10,
   -10,   0,   5,  10,  10,   5,   0, -10,
   -10,   5,  10,  20,  20,  10,   5, -10,
   -10,   5,  10,  20,  20,  10,   5, -10,
   -10,   0,  10,  15,  15,  10,   0, -10,
   -10,   5,  10,  10,  10,  10,   5, -10,
   -10,  10,   0,   5,   5,   0,  10, -10,
   -10, -10, -10, -10, -10, -10, -10, -10]

/-- `eval.rs`: `ROOK_PST`. -/
def ROOK_PST : List Int :=
  [ 20, 20, 20, 25, 25, 20, 20,  20,
    20, 20, 20, 25, 25, 20, 20,  20,
     0,  0,  0,  5,  5,  0,  0,   0,
     0,  0,  0,  5,  5,  0,  0,   0,
     0,  0,  0,  5,  5,  0,  0,   0,
    -5,  0,  0, 10, 10,  0,  0,  -5,
    -5, -5,  0, 15, 15,  0, -5,  -5,
   -10, -5, 10, 25, 25, 10, -5, -10]

/-- `eval.rs`: `QUEEN_PST` (all zeros). -/
def QUEEN_PST : List Int := List.replicate 64 0

/-- `eval.rs`: `KING_PST` (all zeros). -/
def KING_PST : List Int := List.replicate 64 0

/-- `eval.rs`: the `PST` table array, indexed by `Piece::index`. -/
def PST : Piece → List Int
  | .Pawn => PAWN_PST
  | .Knight => KNIGHT_PST
  | .Bishop => BISHOP_PST
  | .Rook => ROOK_PST
  | .Queen => QUEEN_PST
  | .King => KING_PST

/-- `eval.rs`: `fn pst(pst, from_white_perspective, sq)`. From White's
perspective the square index is mirrored by `^ 0b11_1000` into the listed table
(whose first entry is a8); for Black the listed table is read directly. -/
def pstLookup (t : List Int) (from_white_perspective : Bool) (sq : Nat) : Int :=
  if from_white_perspective then t.getD (sq ^^^ 0b111000) 0 else t.getD sq 0

/-- `self.pst[i] -= v` on the `(black, white)` pst pair, `idxWhite` selecting
index 1. -/
def pstSub (pr : Int × Int) (idxWhite : Bool) (v : Int) : Int × Int :=
  if idxWhite then (pr.1, pr.2 - v) else (pr.1 - v, pr.2)

/-- `self.pst[i] += v` on the `(black, white)` pst pair. -/
def pstAdd (pr : Int × Int) (idxWhite : Bool) (v : Int) : Int × Int :=
  if idxWhite then (pr.1, pr.2 + v) else (pr.1 + v, pr.2)

/-- `a[i] -= 1` on a pawns-per-file array. -/
def decAt (l : List Nat) (i : Nat) : List Nat := l.set i (l.getD i 0 - 1)

/-- `a[i] += 1` on a pawns-per-file array. -/
def incAt (l : List Nat) (i : Nat) : List Nat := l.set i (l.getD i 0 + 1)

/-- `eval.rs`: `Eval::make_move` (`pos` is the position before the move). The
sequential mutations of the source are grouped by the field they touch: pst pair,
pawns-per-file, material counters; `pawn_table` is untouched. -/
def Eval.make_move (e : Eval) (m : Move) (pos : Position) : Eval :=
  let w := pos.white_to_move
  -- pst updates (lines 311-333 and the King castling arm, lines 431-451)
  let ps1 := pstSub (e.pst0, e.pst1) w (pstLookup (PST m.piece) w m.fromSq)
  let ps2 :=
    match m.promoted with
    | some pc => pstAdd ps1 w (pstLookup (PST pc) w m.toSq)
    | none => pstAdd ps1 w (pstLookup (PST m.piece) w m.toSq)
  let ps3 :=
    match m.captured with
    | some c =>
      if m.en_passant then pstSub ps2 (!w) (pstLookup (PST .Pawn) (!w) (sqBwd w 1 m.toSq))
      else pstSub ps2 (!w) (pstLookup (PST c) (!w) m.toSq)
    | none => ps2
  let ps4 :=
    if m.piece = .King then
      if m.toSq = m.fromSq + 2 then
        pstAdd (pstSub ps3 w (pstLookup (PST .Rook) w (sqRight 1 m.toSq))) w
          (pstLookup (PST .Rook) w (sqLeft 1 m.toSq))
      else if m.fromSq = m.toSq + 2 then
        pstAdd (pstSub ps3 w (pstLookup (PST .Rook) w (sqLeft 2 m.toSq))) w
          (pstLookup (PST .Rook) w (sqRight 1 m.toSq))
      else ps3
    else ps3
  -- pawns-per-file updates (lines 335-341, 344-351, 385-392)
  let pf1 :=
    if m.piece = .Pawn then
      (if w then { e.positional with
          white_pawns_per_file := decAt e.positional.white_pawns_per_file (sqFile m.fromSq) }
       else { e.positional with
          black_pawns_per_file := decAt e.positional.black_pawns_per_file (sqFile m.fromSq) })
    else e.positional
  let pf2 :=
    if m.captured = some .Pawn then
      (if w then { pf1 with
          black_pawns_per_file := decAt pf1.black_pawns_per_file (sqFile m.toSq) }
       else { pf1 with
          white_pawns_per_file := decAt pf1.white_pawns_per_file (sqFile m.toSq) })
    else pf1
  let pf3 :=
    if m.piece = .Pawn ∧ m.promoted = none then
      (if w then { pf2 with
          white_pawns_per_file := incAt pf2.white_pawns_per_file (sqFile m.toSq) }
       else { pf2 with
          black_pawns_per_file := incAt pf2.black_pawns_per_file (sqFile m.toSq) })
    else pf2
  -- material updates (lines 343-382 for captures, 384-430 for promotions)
  let mt1 :=
    match m.captured with
    | some .Pawn =>
      if w then { e.material with black_pawns := e.material.black_pawns - 1 }
      else { e.material with white_pawns := e.material.white_pawns - 1 }
    | some .Knight =>
      if w then { e.material with black_knights := e.material.black_knights - 1 }
      else { e.material with white_knights := e.material.white_knights - 1 }
    | some .Bishop =>
      if w then { e.material with black_bishops := e.material.black_bishops - 1 }
      else { e.material with white_bishops := e.material.white_bishops - 1 }
    | some .Rook =>
      if w then { e.material with black_rooks := e.material.black_rooks - 1 }
      else { e.material with white_rooks := e.material.white_rooks - 1 }
    | some .Queen =>
      if w then { e.material with black_queens := e.material.black_queens - 1 }
      else { e.material with white_queens := e.material.white_queens - 1 }
    | _ => e.material
  let mt2 :=
    if m.piece = .Pawn then
      match m.promoted with
      | some .Knight =>
        if w then { mt1 with white_pawns := mt1.white_pawns - 1,
                             white_knights := mt1.white_knights + 1 }
        else { mt1 with black_pawns := mt1.black_pawns - 1,
                        black_knights := mt1.black_knights + 1 }
      | some .Bishop =>
        if w then { mt1 with white_pawns := mt1.white_pawns - 1,
                             white_bishops := mt1.white_bishops + 1 }
        else { mt1 with black_pawns := mt1.black_pawns - 1,
                        black_bishops := mt1.black_bishops + 1 }
      | some .Rook =>
        if w then { mt1 with white_pawns := mt1.white_pawns - 1,
                             white_rooks := mt1.white_rooks + 1 }
        else { mt1 with black_pawns := mt1.black_pawns - 1,
                        black_rooks := mt1.black_rooks + 1 }
      | some .Queen =>
        if w then { mt1 with white_pawns := mt1.white_pawns - 1,
                             white_queens := mt1.white_queens + 1 }
        else { mt1 with black_pawns := mt1.black_pawns - 1,
                        black_queens := mt1.black_queens + 1 }
      | _ => mt1
    else mt1
  { material := mt2, pst0 := ps4.1, pst1 := ps4.2, positional := pf3,
    pawn_table := e.pawn_table }

/-- `eval.rs`: `Eval::unmake_move` (`pos` is the position after the move). -/
def Eval.unmake_move (e : Eval) (m : Move) (pos : Position) : Eval :=
  let umw := !pos.white_to_move
  -- pst restoration (lines 459-481 and the King castling arm, lines 491-517)
  let ps1 := pstAdd (e.pst0, e.pst1) umw (pstLookup (PST m.piece) umw m.fromSq)
  let ps2 :=
    match m.promoted with
    | some pc => pstSub ps1 umw (pstLookup (PST pc) umw m.toSq)
    | none => pstSub ps1 umw (pstLookup (PST m.piece) umw m.toSq)
  let ps3 :=
    match m.captured with
    | some c =>
      if m.en_passant then pstAdd ps2 (!umw) (pstLookup (PST .Pawn) (!umw) (sqBwd umw 1 m.toSq))
      else pstAdd ps2 (!umw) (pstLookup (PST c) (!umw) m.toSq)
    | none => ps2
  let ps4 :=
    if m.piece = .King then
      if m.toSq = m.fromSq + 2 then
        pstSub (pstAdd ps3 umw (pstLookup (PST .Rook) umw (sqRight 1 m.toSq))) umw
          (pstLookup (PST .Rook) umw (sqLeft 1 m.toSq))
      else if m.fromSq = m.toSq + 2 then
        pstSub (pstAdd ps3 umw (pstLookup (PST .Rook) umw (sqLeft 2 m.toSq))) umw
          (pstLookup (PST .Rook) umw (sqRight 1 m.toSq))
      else ps3
    else ps3
  -- pawns-per-file restoration (lines 483-489, 521-530, 562-570)
  let pf1 :=
    if m.piece = .Pawn then
      (if umw then { e.positional with
          white_pawns_per_file := incAt e.positional.white_pawns_per_file (sqFile m.fromSq) }
       else { e.positional with
          black_pawns_per_file := incAt e.positional.black_pawns_per_file (sqFile m.fromSq) })
    else e.positional
  let pf2 :=
    if m.captured = some .Pawn then
      (if umw then { pf1 with
          black_pawns_per_file := incAt pf1.black_pawns_per_file (sqFile m.toSq) }
       else { pf1 with
          white_pawns_per_file := incAt pf1.white_pawns_per_file (sqFile m.toSq) })
    else pf1
  let pf3 :=
    if m.piece = .Pawn ∧ m.promoted = none then
      (if umw then { pf2 with
          white_pawns_per_file := decAt pf2.white_pawns_per_file (sqFile m.toSq) }
       else { pf2 with
          black_pawns_per_file := decAt pf2.black_pawns_per_file (sqFile m.toSq) })
    else pf2
  -- material restoration (lines 521-560 for captures, 562-609 for promotions)
  let mt1 :=
    match m.captured with
    | some .Pawn =>
      if umw then { e.material with black_pawns := e.material.black_pawns + 1 }
      else { e.material with white_pawns := e.material.white_pawns + 1 }
    | some .Knight =>
      if umw then { e.material with black_knights := e.material.black_knights + 1 }
      else { e.material with white_knights := e.material.white_knights + 1 }
    | some .Bishop =>
      if umw then { e.material with black_bishops := e.material.black_bishops + 1 }
      else { e.material with white_bishops := e.material.white_bishops + 1 }
    | some .Rook =>
      if umw then { e.material with black_rooks := e.material.black_rooks + 1 }
      else { e.material with white_rooks := e.material.white_rooks + 1 }
    | some .Queen =>
      if umw then { e.material with black_queens := e.material.black_queens + 1 }
      else { e.material with white_queens := e.material.white_queens + 1 }
    | _ => e.material
  let mt2 :=
    if m.piece = .Pawn then
      match m.promoted with
      | some .Knight =>
        if umw then { mt1 with white_pawns := mt1.white_pawns + 1,
                               white_knights := mt1.white_knights - 1 }
        else { mt1 with black_pawns := mt1.black_pawns + 1,
                        black_knights := mt1.black_knights - 1 }
      | some .Bishop =>
        if umw then { mt1 with white_pawns := mt1.white_pawns + 1,
                               white_bishops := mt1.white_bishops - 1 }
        else { mt1 with black_pawns := mt1.black_pawns + 1,
                        black_bishops := mt1.black_bishops - 1 }
      | some .Rook =>
        if umw then { mt1 with white_pawns := mt1.white_pawns + 1,
                               white_rooks := mt1.white_rooks - 1 }
        else { mt1 with black_pawns := mt1.black_pawns + 1,
                        black_rooks := mt1.black_rooks - 1 }
      | some .Queen =>
        if umw then { mt1 with white_pawns := mt1.white_pawns + 1,
                               white_queens := mt1.white_queens - 1 }
        else { mt1 with black_pawns := mt1.black_pawns + 1,
                        black_queens := mt1.black_queens - 1 }
      | _ => mt1
    else mt1
  { material := mt2, pst0 := ps4.1, pst1 := ps4.2, positional := pf3,
    pawn_table := e.pawn_table }

/-! ### Hasher round trip -/

theorem testB_bitB (t s : Nat) : (bitB t).testBit s = decide (t = s) := by
  simp [bitB, Nat.shiftLeft_eq, Nat.testBit_two_pow]

theorem epCondH_eq (p : Position) (m : Move) : epCondH p m = Position.epCondP p m := by
  unfold epCondH Position.epCondP
  cases hw : p.white_to_move <;>
    simp [hw, Position.them, Position.black_pieces, Position.white_pieces, testB,
      Nat.testBit_or, Nat.and_comm, Bool.or_comm, Bool.and_comm, Bool.and_left_comm]

theorem sqFile_ne_255 (s : Nat) : sqFile s ≠ 255 := by
  have h : sqFile s ≤ 7 := Nat.and_le_right
  omega

theorem epin_eq (p : Position) (m : Move) (k : Nat → Nat) :
    (if epCondH p m then k (sqFile m.fromSq) else 0)
      = (if (p.make_move m).details.en_passant ≠ 255
         then k ((p.make_move m).details.en_passant) else 0) := by
  rw [make_move_ep, epCondH_eq]
  cases hc : Position.epCondP p m <;> simp [hc, sqFile_ne_255]

theorem and_castle_mask_white {x : Nat} (hx : x < 16) :
    x &&& (CASTLE_BLACK_KSIDE ||| CASTLE_BLACK_QSIDE)
      = x &&& notB8 (CASTLE_WHITE_KSIDE ||| CASTLE_WHITE_QSIDE) := by
  apply Nat.eq_of_testBit_eq
  intro i
  simp only [Nat.testBit_and]
  by_cases hi : i < 4
  · interval_cases i <;> congr 1
  · have hbit : x.testBit i = false := by
      refine Nat.testBit_lt_two_pow (lt_of_lt_of_le hx ?_)
      calc (16 : Nat) = 2 ^ 4 := by norm_num
        _ ≤ 2 ^ i := Nat.pow_le_pow_right (by norm_num) (by omega)
    simp [hbit]

theorem and_castle_mask_black {x : Nat} (hx : x < 16) :
    x &&& (CASTLE_WHITE_KSIDE ||| CASTLE_WHITE_QSIDE)
      = x &&& notB8 (CASTLE_BLACK_KSIDE ||| CASTLE_BLACK_QSIDE) := by
  apply Nat.eq_of_testBit_eq
  intro i
  simp only [Nat.testBit_and]
  by_cases hi : i < 4
  · interval_cases i <;> congr 1
  · have hbit : x.testBit i = false := by
      refine Nat.testBit_lt_two_pow (lt_of_lt_of_le hx ?_)
      calc (16 : Nat) = 2 ^ 4 := by norm_num
        _ ≤ 2 ^ i := Nat.pow_le_pow_right (by norm_num) (by omega)
    simp [hbit]

theorem hashCastling_eq (p : Position) (m : Move) (hc : p.details.castling < 16) :
    hashCastling p m = Position.makeCastling p m := by
  unfold hashCastling Position.makeCastling
  have h1 :
      (if m.piece = .King then
        (if p.white_to_move then
          p.details.castling &&& (CASTLE_BLACK_KSIDE ||| CASTLE_BLACK_QSIDE)
         else p.details.castling &&& (CASTLE_WHITE_KSIDE ||| CASTLE_WHITE_QSIDE))
       else p.details.castling)
      = Position.clearIf (m.piece = .King)
          (if p.white_to_move then CASTLE_WHITE_KSIDE ||| CASTLE_WHITE_QSIDE
           else CASTLE_BLACK_KSIDE ||| CASTLE_BLACK_QSIDE)
          p.details.castling := by
    unfold Position.clearIf
    by_cases hk : m.piece = .King <;> cases hw : p.white_to_move <;>
      simp [hk, hw, and_castle_mask_white hc, and_castle_mask_black hc]
  exact congrArg _ (congrArg _ (congrArg _ (congrArg _ h1)))

theorem pieceKeysU_eq (h : Hasher) (w : Bool) (m : Move) :
    pieceKeysU h w m = pieceKeysM h w m := by
  unfold pieceKeysU pieceKeysM
  cases m.piece <;> simp [Nat.xor_assoc, Nat.xor_comm, xor_lc, xor_cl]

theorem capKeysU_eq (h : Hasher) (w : Bool) (m : Move) (precolor : Nat)
    (hne : m.fromSq ≠ m.toSq)
    (hcapk : m.captured ≠ some .King)
    (hepc : m.en_passant = true → m.captured = some .Pawn)
    (hb1 : w = false → m.en_passant = false → m.captured.isSome = true →
      testB precolor m.toSq = true)
    (hb2 : w = false → (m.captured = none ∨ m.en_passant = true) →
      testB precolor m.toSq = false)
    (hb3 : w = false → testB precolor m.fromSq = false)
    (hep : w = false → m.en_passant = true → m.fromSq ≠ m.toSq + 8) :
    capKeysU h (!w) m
      = capKeysM h w m ^^^ moverColorM h precolor w m
        ^^^ moverColorU h (precolor ^^^ colorDelta w m) w m := by
  cases w
  case true =>
    rcases hcm : m.captured with _ | c
    · simp [capKeysU, capKeysM, moverColorM, moverColorU, hcm,
        Nat.xor_assoc, Nat.xor_comm, xor_lc, xor_cl]
    · cases c
      case King => exact absurd hcm hcapk
      all_goals
        simp [capKeysU, capKeysM, moverColorM, moverColorU, hcm,
          Nat.xor_assoc, Nat.xor_comm, xor_lc, xor_cl]
  case false =>
    have h3 := hb3 rfl
    rcases hcm : m.captured with _ | c
    · cases hepv : m.en_passant
      · have h2 : precolor.testBit m.toSq = false := hb2 rfl (Or.inl hcm)
        have h3x : precolor.testBit m.fromSq = false := h3
        simp [capKeysU, capKeysM, moverColorM, moverColorU, colorDelta, hcm, hepv, h2, h3x,
          testB, Nat.testBit_xor, testB_bitB]
      · have hpc := hepc hepv
        rw [hcm] at hpc
        exact Option.noConfusion hpc
    · cases hepv : m.en_passant
      · have h1 : precolor.testBit m.toSq = true := hb1 rfl hepv (by simp [hcm])
        have h3x : precolor.testBit m.fromSq = false := h3
        have hne2 : m.toSq ≠ m.fromSq := Ne.symm hne
        cases c
        case King => exact absurd hcm hcapk
        all_goals
          simp [capKeysU, capKeysM, moverColorM, moverColorU, colorDelta, hcm, hepv,
            h1, h3x, testB, Nat.testBit_xor, testB_bitB, hne2,
            Nat.xor_assoc, Nat.xor_comm, xor_lc, xor_cl]
      · have hpc := hepc hepv
        rw [hcm] at hpc
        have hc2 : c = .Pawn := by injection hpc
        subst hc2
        have h2 : precolor.testBit m.toSq = false := hb2 rfl (Or.inr hepv)
        have h3x : precolor.testBit m.fromSq = false := h3
        have h4 := hep rfl hepv
        have h4b : m.toSq + 8 ≠ m.fromSq := fun hh => h4 hh.symm
        simp [capKeysU, capKeysM, moverColorM, moverColorU, colorDelta, hcm, hepv,
          h2, h3x, sqBwd, sqFwd, testB, Nat.testBit_xor, testB_bitB, h4b,
          Nat.xor_assoc, Nat.xor_comm, xor_lc, xor_cl]

theorem capKeysU_hash_irrel (h : Hasher) (x : Nat) (w : Bool) (m : Move) :
    capKeysU { h with hash := x } w m = capKeysU h w m := rfl

theorem pieceKeysU_hash_irrel (h : Hasher) (x : Nat) (w : Bool) (m : Move) :
    pieceKeysU { h with hash := x } w m = pieceKeysU h w m := rfl

theorem moverColorU_hash_irrel (h : Hasher) (x colorbb : Nat) (w : Bool) (m : Move) :
    moverColorU { h with hash := x } colorbb w m = moverColorU h colorbb w m := rfl

/-! ### Eval round trip helper lemmas -/

theorem getD_set_self (l : List Nat) (i v : Nat) (h : i < l.length) :
    (l.set i v).getD i 0 = v := by
  simp [List.getD_eq_getElem?_getD, List.getElem?_set_self h]

theorem getD_set_ne (l : List Nat) {i j : Nat} (h : j ≠ i) (v : Nat) :
    (l.set j v).getD i 0 = l.getD i 0 := by
  simp [List.getD_eq_getElem?_getD, List.getElem?_set_ne h]

theorem set_getD_self (l : List Nat) (i : Nat) (h : i < l.length) :
    l.set i (l.getD i 0) = l := by
  apply List.ext_getElem?
  intro j
  by_cases hj : i = j
  · subst hj
    rw [List.getElem?_set_self h]
    have hx : ∃ x, l[i]? = some x := by
      simp [List.getElem?_eq_some_iff]
      exact ⟨l[i], h, rfl⟩
    obtain ⟨x, hx⟩ := hx
    simp [hx]
  · rw [List.getElem?_set_ne hj]

theorem dec_inc (l : List Nat) (i : Nat) (h : i < l.length) :
    decAt (incAt l i) i = l := by
  unfold decAt incAt
  rw [getD_set_self l i _ h, List.set_set, Nat.add_sub_cancel, set_getD_self l i h]

theorem inc_dec (l : List Nat) (i : Nat) (h : i < l.length) (hg : 1 ≤ l.getD i 0) :
    incAt (decAt l i) i = l := by
  unfold decAt incAt
  rw [getD_set_self l i _ h, List.set_set, Nat.sub_add_cancel hg, set_getD_self l i h]

theorem inc_inc_comm (l : List Nat) {i j : Nat} (h : i ≠ j) :
    incAt (incAt l j) i = incAt (incAt l i) j := by
  unfold incAt
  rw [getD_set_ne l (Ne.symm h), getD_set_ne l h, List.set_comm _ _ _ (Ne.symm h)]

theorem list_rt (l : List Nat) (f1 f2 : Nat) (h1 : f1 < l.length) (h2 : f2 < l.length)
    (hg : 1 ≤ l.getD f1 0) :
    decAt (incAt (incAt (decAt l f1) f2) f1) f2 = l := by
  by_cases hf : f1 = f2
  · subst hf
    rw [inc_dec l f1 h1 hg, dec_inc l f1 h1]
  · rw [inc_inc_comm (decAt l f1) hf, inc_dec l f1 h1 hg, dec_inc l f2 h2]

theorem sqFile_lt_8 (s : Nat) : sqFile s < 8 :=
  lt_of_le_of_lt (Nat.and_le_right) (by norm_num)

theorem pstSub_fst (pr : Int × Int) (b : Bool) (v : Int) :
    (pstSub pr b v).1 = pr.1 - (if b then 0 else v) := by
  cases b <;> simp [pstSub]

theorem pstSub_snd (pr : Int × Int) (b : Bool) (v : Int) :
    (pstSub pr b v).2 = pr.2 - (if b then v else 0) := by
  cases b <;> simp [pstSub]

theorem pstAdd_fst (pr : Int × Int) (b : Bool) (v : Int) :
    (pstAdd pr b v).1 = pr.1 + (if b then 0 else v) := by
  cases b <;> simp [pstAdd]

theorem pstAdd_snd (pr : Int × Int) (b : Bool) (v : Int) :
    (pstAdd pr b v).2 = pr.2 + (if b then v else 0) := by
  cases b <;> simp [pstAdd]

set_option maxHeartbeats 8000000 in
theorem eval_pst_round (e : Eval) (m : Move) (p : Position) :
    ((e.make_move m p).unmake_move m (p.make_move m)).pst0 = e.pst0
      ∧ ((e.make_move m p).unmake_move m (p.make_move m)).pst1 = e.pst1 := by
  obtain ⟨mf, mt, mpc, mcap, mpr, mep⟩ := m
  rcases mcap with _ | c <;> rcases mpr with _ | pc <;> cases mep <;>
  · refine ⟨?_, ?_⟩ <;>
    · simp only [Eval.make_move, Eval.unmake_move, make_move_wtm, Bool.not_not,
        pstSub_fst, pstSub_snd, pstAdd_fst, pstAdd_snd,
        apply_ite (Prod.fst (α := Int) (β := Int)),
        apply_ite (Prod.snd (α := Int) (β := Int))]
      split_ifs <;> ring

set_option maxHeartbeats 8000000 in
theorem eval_positional_round (e : Eval) (m : Move) (p : Position)
    (hlw : e.positional.white_pawns_per_file.length = 8)
    (hlb : e.positional.black_pawns_per_file.length = 8)
    (hpf : m.piece = .Pawn → 1 ≤ (if p.white_to_move then e.positional.white_pawns_per_file
        else e.positional.black_pawns_per_file).getD (sqFile m.fromSq) 0)
    (hcp : m.captured = some .Pawn → 1 ≤ (if p.white_to_move
        then e.positional.black_pawns_per_file
        else e.positional.white_pawns_per_file).getD (sqFile m.toSq) 0) :
    ((e.make_move m p).unmake_move m (p.make_move m)).positional = e.positional := by
  have hw1 : sqFile m.fromSq < e.positional.white_pawns_per_file.length := by
    rw [hlw]; exact sqFile_lt_8 _
  have hw2 : sqFile m.toSq < e.positional.white_pawns_per_file.length := by
    rw [hlw]; exact sqFile_lt_8 _
  have hb1 : sqFile m.fromSq < e.positional.black_pawns_per_file.length := by
    rw [hlb]; exact sqFile_lt_8 _
  have hb2 : sqFile m.toSq < e.positional.black_pawns_per_file.length := by
    rw [hlb]; exact sqFile_lt_8 _
  by_cases hpp : m.piece = .Pawn <;>
  by_cases hcap : m.captured = some .Pawn <;>
  rcases hpr : m.promoted with _ | pc <;>
  cases hw : p.white_to_move <;>
  · simp only [Eval.make_move, Eval.unmake_move, make_move_wtm, Bool.not_not,
      hpp, hcap, hpr, hw] at *
    ext : 1 <;>
      simp_all [list_rt, inc_dec, dec_inc, List.length_set]

/-- The material update of `Eval::make_move`, as a function of the old counts:
capture decrement followed by promotion adjustment. -/
def matM (mat : Material) (m : Move) (w : Bool) : Material :=
  let mt1 :=
    match m.captured with
    | some .Pawn =>
      if w then { mat with black_pawns := mat.black_pawns - 1 }
      else { mat with white_pawns := mat.white_pawns - 1 }
    | some .Knight =>
      if w then { mat with black_knights := mat.black_knights - 1 }
      else { mat with white_knights := mat.white_knights - 1 }
    | some .Bishop =>
      if w then { mat with black_bishops := mat.black_bishops - 1 }
      else { mat with white_bishops := mat.white_bishops - 1 }
    | some .Rook =>
      if w then { mat with black_rooks := mat.black_rooks - 1 }
      else { mat with white_rooks := mat.white_rooks - 1 }
    | some .Queen =>
      if w then { mat with black_queens := mat.black_queens - 1 }
      else { mat with white_queens := mat.white_queens - 1 }
    | _ => mat
  if m.piece = .Pawn then
    match m.promoted with
    | some .Knight =>
      if w then { mt1 with white_pawns := mt1.white_pawns - 1,
                           white_knights := mt1.white_knights + 1 }
      else { mt1 with black_pawns := mt1.black_pawns - 1,
                      black_knights := mt1.black_knights + 1 }
    | some .Bishop =>
      if w then { mt1 with white_pawns := mt1.white_pawns - 1,
                           white_bishops := mt1.white_bishops + 1 }
      else { mt1 with black_pawns := mt1.black_pawns - 1,
                      black_bishops := mt1.black_bishops + 1 }
    | some .Rook =>
      if w then { mt1 with white_pawns := mt1.white_pawns - 1,
                           white_rooks := mt1.white_rooks + 1 }
      else { mt1 with black_pawns := mt1.black_pawns - 1,
                      black_rooks := mt1.black_rooks + 1 }
    | some .Queen =>
      if w then { mt1 with white_pawns := mt1.white_pawns - 1,
                           white_queens := mt1.white_queens + 1 }
      else { mt1 with black_pawns := mt1.black_pawns - 1,
                      black_queens := mt1.black_queens + 1 }
    | _ => mt1
  else mt1

/-- The material restoration of `Eval::unmake_move`, as a function of the counts
after the move, with `umw` the side that made the move. -/
def matU (mat : Material) (m : Move) (umw : Bool) : Material :=
  let mt1 :=
    match m.captured with
    | some .Pawn =>
      if umw then { mat with black_pawns := mat.black_pawns + 1 }
      else { mat with white_pawns := mat.white_pawns + 1 }
    | some .Knight =>
      if umw then { mat with black_knights := mat.black_knights + 1 }
      else { mat with white_knights := mat.white_knights + 1 }
    | some .Bishop =>
      if umw then { mat with black_bishops := mat.black_bishops + 1 }
      else { mat with white_bishops := mat.white_bishops + 1 }
    | some .Rook =>
      if umw then { mat with black_rooks := mat.black_rooks + 1 }
      else { mat with white_rooks := mat.white_rooks + 1 }
    | some .Queen =>
      if umw then { mat with black_queens := mat.black_queens + 1 }
      else { mat with white_queens := mat.white_queens + 1 }
    | _ => mat
  if m.piece = .Pawn then
    match m.promoted with
    | some .Knight =>
      if umw then { mt1 with white_pawns := mt1.white_pawns + 1,
                             white_knights := mt1.white_knights - 1 }
      else { mt1 with black_pawns := mt1.black_pawns + 1,
                      black_knights := mt1.black_knights - 1 }
    | some .Bishop =>
      if umw then { mt1 with white_pawns := mt1.white_pawns + 1,
                             white_bishops := mt1.white_bishops - 1 }
      else { mt1 with black_pawns := mt1.black_pawns + 1,
                      black_bishops := mt1.black_bishops - 1 }
    | some .Rook =>
      if umw then { mt1 with white_pawns := mt1.white_pawns + 1,
                             white_rooks := mt1.white_rooks - 1 }
      else { mt1 with black_pawns := mt1.black_pawns + 1,
                      black_rooks := mt1.black_rooks - 1 }
    | some .Queen =>
      if umw then { mt1 with white_pawns := mt1.white_pawns + 1,
                             white_queens := mt1.white_queens - 1 }
      else { mt1 with black_pawns := mt1.black_pawns + 1,
                      black_queens := mt1.black_queens - 1 }
    | _ => mt1
  else mt1

theorem make_move_material (e : Eval) (m : Move) (p : Position) :
    (e.make_move m p).material = matM e.material m p.white_to_move := rfl

theorem unmake_move_material (e : Eval) (m : Move) (pos : Position) :
    (e.unmake_move m pos).material = matU e.material m (!pos.white_to_move) := rfl

set_option maxHeartbeats 16000000 in
theorem eval_material_round (e : Eval) (m : Move) (p : Position)
    (hc1 : m.captured = some .Pawn → 1 ≤ (if p.white_to_move then e.material.black_pawns
        else e.material.white_pawns))
    (hc2 : m.captured = some .Knight → 1 ≤ (if p.white_to_move then e.material.black_knights
        else e.material.white_knights))
    (hc3 : m.captured = some .Bishop → 1 ≤ (if p.white_to_move then e.material.black_bishops
        else e.material.white_bishops))
    (hc4 : m.captured = some .Rook → 1 ≤ (if p.white_to_move then e.material.black_rooks
        else e.material.white_rooks))
    (hc5 : m.captured = some .Queen → 1 ≤ (if p.white_to_move then e.material.black_queens
        else e.material.white_queens))
    (hpro : m.piece = .Pawn → m.promoted.isSome = true →
      1 ≤ (if p.white_to_move then e.material.white_pawns else e.material.black_pawns)) :
    ((e.make_move m p).unmake_move m (p.make_move m)).material = e.material := by
  rw [unmake_move_material, make_move_material, make_move_wtm, Bool.not_not]
  obtain ⟨mf, mt, mpc, mcap, mpr, mep⟩ := m
  rcases mcap with _ | c <;>
  rcases mpr with _ | pc <;>
  by_cases hpp : mpc = Piece.Pawn <;>
  cases hw : p.white_to_move <;>
  first
  | (cases c <;> cases pc <;> (ext <;> simp_all [matM, matU] <;> omega))
  | (cases c <;> (ext <;> simp_all [matM, matU] <;> omega))
  | (cases pc <;> (ext <;> simp_all [matM, matU] <;> omega))
  | (ext <;> simp_all [matM, matU] <;> omega)

set_option maxHeartbeats 8000000 in
/-- `Hasher::make_move` followed by `Hasher::unmake_move` (called, as in the
search, with the post-move position and the saved details) restores the hash
bit-for-bit, for any key tables. The hypotheses are consequences of the position
being reachable and the move pseudo-legal. -/
theorem hasher_make_unmake (h : Hasher) (p : Position) (m : Move)
    (hcast : p.details.castling < 16)
    (hne : m.fromSq ≠ m.toSq)
    (hcapk : m.captured ≠ some .King)
    (hepc : m.en_passant = true → m.captured = some .Pawn)
    (hb1 : p.white_to_move = false → m.en_passant = false → m.captured.isSome = true →
      testB p.color m.toSq = true)
    (hb2 : p.white_to_move = false → (m.captured = none ∨ m.en_passant = true) →
      testB p.color m.toSq = false)
    (hb3 : p.white_to_move = false → testB p.color m.fromSq = false)
    (hep : p.white_to_move = false → m.en_passant = true → m.fromSq ≠ m.toSq + 8) :
    (h.make_move p m).unmake_move (p.make_move m) m p.details = h := by
  unfold Hasher.make_move Hasher.unmake_move
  refine Hasher.ext rfl rfl rfl rfl rfl rfl rfl rfl rfl rfl ?_
  simp only [capKeysU_hash_irrel, pieceKeysU_hash_irrel, moverColorU_hash_irrel]
  simp only [make_move_wtm, Bool.not_not, make_move_color, make_move_castling]
  simp only [capKeysU_eq h p.white_to_move m p.color hne hcapk hepc hb1 hb2 hb3 hep,
    pieceKeysU_eq]
  simp only [← epin_eq p m h.en_passantK]
  simp only [← hashCastling_eq p m hcast]
  simp [Nat.xor_assoc, Nat.xor_comm, xor_lc, xor_cl]

/-- `Eval::make_move` followed by `Eval::unmake_move` (with the post-move
position) restores the evaluation state bit-for-bit, given that the affected
piece counters are positive (as they are when the counters agree with a
reachable position and the move is pseudo-legal). -/
theorem eval_make_unmake (e : Eval) (m : Move) (p : Position)
    (hlw : e.positional.white_pawns_per_file.length = 8)
    (hlb : e.positional.black_pawns_per_file.length = 8)
    (hpf : m.piece = .Pawn → 1 ≤ (if p.white_to_move then e.positional.white_pawns_per_file
        else e.positional.black_pawns_per_file).getD (sqFile m.fromSq) 0)
    (hcp : m.captured = some .Pawn → 1 ≤ (if p.white_to_move
        then e.positional.black_pawns_per_file
        else e.positional.white_pawns_per_file).getD (sqFile m.toSq) 0)
    (hc1 : m.captured = some .Pawn → 1 ≤ (if p.white_to_move then e.material.black_pawns
        else e.material.white_pawns))
    (hc2 : m.captured = some .Knight → 1 ≤ (if p.white_to_move then e.material.black_knights
        else e.material.white_knights))
    (hc3 : m.captured = some .Bishop → 1 ≤ (if p.white_to_move then e.material.black_bishops
        else e.material.white_bishops))
    (hc4 : m.captured = some .Rook → 1 ≤ (if p.white_to_move then e.material.black_rooks
        else e.material.white_rooks))
    (hc5 : m.captured = some .Queen → 1 ≤ (if p.white_to_move then e.material.black_queens
        else e.material.white_queens))
    (hpro : m.piece = .Pawn → m.promoted.isSome = true →
      1 ≤ (if p.white_to_move then e.material.white_pawns else e.material.black_pawns)) :
    (e.make_move m p).unmake_move m (p.make_move m) = e := by
  have hmat := eval_material_round e m p hc1 hc2 hc3 hc4 hc5 hpro
  have hpos := eval_positional_round e m p hlw hlb hpf hcp
  have hpst := eval_pst_round e m p
  have htab : ((e.make_move m p).unmake_move m (p.make_move m)).pawn_table
      = e.pawn_table := rfl
  exact Eval.ext hmat hpst.1 hpst.2 hpos htab

/-! ## C1: make/unmake round trip for Position, Hasher and Eval -/

/-- C1: for a reachable position `P` and pseudo-legal move `m`, after
`make_move(m); unmake_move(m, d)` with the saved details `d = P.details` on
Position, Hasher and Eval, all three structures are bitwise equal to their
prior state. Reachability and pseudo-legality enter through their consequences:
the redundant `Position` fields agree with the bitboards, the castling mask is a
4-bit value, a king move starts at the cached king square, the colour bitboard
marks exactly the white pieces on the relevant squares, kings are never
captured, en-passant moves capture a pawn on a different square than `from`,
and the Eval counters being decremented are positive. -/
theorem c1_make_unmake_restores (p : Position) (h : Hasher) (e : Eval) (m : Move)
    (hall : p.all_pieces = p.bb.pawn ||| p.bb.knight ||| p.bb.bishop ||| p.bb.rook
        ||| p.bb.queen ||| p.bb.king)
    (hp1 : p.pieces1 = p.all_pieces &&& p.color)
    (hp0 : p.pieces0 = p.all_pieces &&& notB p.color)
    (hking : m.piece = .King → p.king_sq p.white_to_move = m.fromSq)
    (hcast : p.details.castling < 16)
    (hne : m.fromSq ≠ m.toSq)
    (hcapk : m.captured ≠ some .King)
    (hepc : m.en_passant = true → m.captured = some .Pawn)
    (hb1 : p.white_to_move = false → m.en_passant = false → m.captured.isSome = true →
      testB p.color m.toSq = true)
    (hb2 : p.white_to_move = false → (m.captured = none ∨ m.en_passant = true) →
      testB p.color m.toSq = false)
    (hb3 : p.white_to_move = false → testB p.color m.fromSq = false)
    (hep : p.white_to_move = false → m.en_passant = true → m.fromSq ≠ m.toSq + 8)
    (hlw : e.positional.white_pawns_per_file.length = 8)
    (hlb : e.positional.black_pawns_per_file.length = 8)
    (hpf : m.piece = .Pawn → 1 ≤ (if p.white_to_move then e.positional.white_pawns_per_file
        else e.positional.black_pawns_per_file).getD (sqFile m.fromSq) 0)
    (hcp : m.captured = some .Pawn → 1 ≤ (if p.white_to_move
        then e.positional.black_pawns_per_file
        else e.positional.white_pawns_per_file).getD (sqFile m.toSq) 0)
    (hc1 : m.captured = some .Pawn → 1 ≤ (if p.white_to_move then e.material.black_pawns
        else e.material.white_pawns))
    (hc2 : m.captured = some .Knight → 1 ≤ (if p.white_to_move then e.material.black_knights
        else e.material.white_knights))
    (hc3 : m.captured = some .Bishop → 1 ≤ (if p.white_to_move then e.material.black_bishops
        else e.material.white_bishops))
    (hc4 : m.captured = some .Rook → 1 ≤ (if p.white_to_move then e.material.black_rooks
        else e.material.white_rooks))
    (hc5 : m.captured = some .Queen → 1 ≤ (if p.white_to_move then e.material.black_queens
        else e.material.white_queens))
    (hpro : m.piece = .Pawn → m.promoted.isSome = true →
      1 ≤ (if p.white_to_move then e.material.white_pawns else e.material.black_pawns)) :
    (p.make_move m).unmake_move m p.details = p
    ∧ (h.make_move p m).unmake_move (p.make_move m) m p.details = h
    ∧ (e.make_move m p).unmake_move m (p.make_move m) = e :=
  ⟨position_make_unmake p m hall hp1 hp0 hking,
   hasher_make_unmake h p m hcast hne hcapk hepc hb1 hb2 hb3 hep,
   eval_make_unmake e m p hlw hlb hpf hcp hc1 hc2 hc3 hc4 hc5 hpro⟩

/-- `position.rs`: `STARTING_POSITION` (the bitboard constants live in the
missing `bitboard.rs`; their values here spell out the standard chess starting
position, as fixed by spec scenario E1). -/
def STARTING_POSITION : Position :=
  { color := 0xFFFF
    bb := ⟨0x00FF00000000FF00, 0x4200000000000042, 0x2400000000000024,
           0x8100000000000081, 0x0800000000000008, 0x1000000000000010⟩
    pieces0 := 0xFFFF000000000000
    pieces1 := 0xFFFF
    white_to_move := true
    fullmove := 1
    details := { halfmove := 0, en_passant := 255,
                 castling := CASTLE_WHITE_KSIDE ||| CASTLE_WHITE_QSIDE
                   ||| CASTLE_BLACK_KSIDE ||| CASTLE_BLACK_QSIDE }
    all_pieces := 0xFFFF00000000FFFF
    king_sq0 := 60
    king_sq1 := 4 }

/-- The move e2e4 from the starting position. -/
def moveE2E4 : Move := ⟨12, 28, .Pawn, none, none, false⟩

/-- A `Hasher` with all-zero key tables (the round trip holds for any keys). -/
def zeroHasher : Hasher :=
  ⟨fun _ => 0, fun _ => 0, fun _ => 0, fun _ => 0, fun _ => 0, fun _ => 0, fun _ => 0,
   0, fun _ => 0, fun _ => 0, 0⟩

/-- The `Eval` aggregates of the starting position with an empty pawn table. -/
def startEval : Eval :=
  { material := ⟨8, 2, 2, 2, 1, 8, 2, 2, 2, 1⟩
    pst0 := 0
    pst1 := 0
    positional := ⟨List.replicate 8 1, List.replicate 8 1⟩
    pawn_table := [] }

/-- Witness for C1: the round trip at the starting position with the move e2e4. -/
theorem c1_make_unmake_restores_witness :
    (STARTING_POSITION.make_move moveE2E4).unmake_move moveE2E4 STARTING_POSITION.details
        = STARTING_POSITION
    ∧ (zeroHasher.make_move STARTING_POSITION moveE2E4).unmake_move
        (STARTING_POSITION.make_move moveE2E4) moveE2E4 STARTING_POSITION.details = zeroHasher
    ∧ (startEval.make_move moveE2E4 STARTING_POSITION).unmake_move moveE2E4
        (STARTING_POSITION.make_move moveE2E4) = startEval :=
  c1_make_unmake_restores STARTING_POSITION zeroHasher startEval moveE2E4
    (by decide) (by decide) (by decide) (by decide) (by decide) (by decide) (by decide)
    (by decide) (by decide) (by decide) (by decide) (by decide) (by decide) (by decide)
    (by decide) (by decide) (by decide) (by decide) (by decide) (by decide) (by decide)
    (by decide)

/-! ## C2: the en-passant file after `make_move` -/

/-- Modelled from the claim's words (C2): `m` moves a pawn from the mover's
double-step start rank (rank index 1 for White, 6 for Black) to the double-step
target rank (index 3 resp. 4), and an enemy pawn stands on a square horizontally
adjacent to `m.toSq`. -/
def c2SpecCond (p : Position) (m : Move) : Prop :=
  m.piece = Piece.Pawn
  ∧ sqRank m.fromSq = (if p.white_to_move then 1 else 6)
  ∧ sqRank m.toSq = (if p.white_to_move then 3 else 4)
  ∧ ((sqFile m.toSq ≠ 0 ∧ testB (p.them p.white_to_move &&& p.pawns) (m.toSq - 1))
     ∨ (sqFile m.toSq ≠ 7 ∧ testB (p.them p.white_to_move &&& p.pawns) (m.toSq + 1)))

instance c2SpecCondDecidable (p : Position) (m : Move) : Decidable (c2SpecCond p m) := by
  unfold c2SpecCond; infer_instance

/-- A 64-bit constant has no bits at or above index 64. -/
theorem testBit_ge_64 (x j : Nat) (hx : x < 2 ^ 64) (hj : 64 ≤ j) : x.testBit j = false :=
  Nat.testBit_lt_two_pow (lt_of_lt_of_le hx (Nat.pow_le_pow_right (by norm_num) hj))

/-- Bits of a rank mask: `RANKS r` holds exactly the squares of rank `r`. -/
theorem RANKS_testBit (r j : Nat) (hr : r < 8) :
    (RANKS r).testBit j = (decide (j < 64) && decide (j / 8 = r)) := by
  unfold RANKS
  rw [Nat.testBit_shiftLeft, show (0xFF : Nat) = 2 ^ 8 - 1 by norm_num,
    Nat.testBit_two_pow_sub_one]
  by_cases h1 : j / 8 = r
  · have ha : 8 * r ≤ j := by omega
    have hb : j - 8 * r < 8 := by omega
    have hc : j < 64 := by omega
    simp [ge_iff_le, ha, hb, hc, h1]
  · by_cases ha : 8 * r ≤ j
    · have hb : ¬(j - 8 * r < 8) := by omega
      simp [ge_iff_le, ha, hb, h1]
    · simp [ge_iff_le, ha, h1]

theorem RANK_2_testBit (j : Nat) :
    RANK_2.testBit j = (decide (j < 64) && decide (j / 8 = 1)) := RANKS_testBit 1 j (by omega)

theorem RANK_4_testBit (j : Nat) :
    RANK_4.testBit j = (decide (j < 64) && decide (j / 8 = 3)) := RANKS_testBit 3 j (by omega)

theorem RANK_5_testBit (j : Nat) :
    RANK_5.testBit j = (decide (j < 64) && decide (j / 8 = 4)) := RANKS_testBit 4 j (by omega)

theorem RANK_7_testBit (j : Nat) :
    RANK_7.testBit j = (decide (j < 64) && decide (j / 8 = 6)) := RANKS_testBit 6 j (by omega)

/-- Bits of the A-file mask. -/
theorem FILE_A_testBit (j : Nat) :
    FILE_A.testBit j = (decide (j < 64) && decide (j % 8 = 0)) := by
  by_cases h : j < 64
  · interval_cases j <;> decide
  · rw [testBit_ge_64 FILE_A j (by decide) (Nat.le_of_not_lt h)]
    simp [h]

/-- Bits of the H-file mask. -/
theorem FILE_H_testBit (j : Nat) :
    FILE_H.testBit j = (decide (j < 64) && decide (j % 8 = 7)) := by
  by_cases h : j < 64
  · interval_cases j <;> decide
  · rw [testBit_ge_64 FILE_H j (by decide) (Nat.le_of_not_lt h)]
    simp [h]

/-- Bits of a 64-bit complement. -/
theorem notB_testBit (x j : Nat) : (notB x).testBit j = (decide (j < 64) && !x.testBit j) := by
  unfold notB
  rw [show M64 = 2 ^ 64 - 1 by decide]
  simp only [Nat.testBit_xor, Nat.testBit_and, Nat.testBit_two_pow_sub_one]
  by_cases hj : j < 64 <;> cases hx : Nat.testBit x j <;> simp [hj, hx]

/-- Bits of `leftB 1`: square `t` sees the bit of square `t + 1` unless `t` is on
the H-file. -/
theorem testBit_leftB1 (bb t : Nat) (ht : t < 64) :
    (leftB 1 bb).testBit t = (bb.testBit (t + 1) && decide (t % 8 ≠ 7)) := by
  unfold leftB
  rw [show filesLT 1 = FILE_A by decide, Nat.testBit_shiftRight, Nat.testBit_and,
    notB_testBit, FILE_A_testBit]
  by_cases h7 : t % 8 = 7
  · have h10 : (1 + t) % 8 = 0 := by omega
    by_cases hlt : 1 + t < 64 <;> simp [h7, h10, hlt]
  · have e : 1 + t = t + 1 := by omega
    rw [e]
    have hlt : t + 1 < 64 := by omega
    have h10 : ¬((t + 1) % 8 = 0) := by omega
    simp [h7, h10, hlt]

/-- Bits of `rightB 1`: square `t` sees the bit of square `t - 1` unless `t` is on
the A-file. -/
theorem testBit_rightB1 (bb t : Nat) (ht : t < 64) :
    (rightB 1 bb).testBit t = (decide (t % 8 ≠ 0) && bb.testBit (t - 1)) := by
  unfold rightB
  rw [show filesGE (8 - 1) = FILE_H by decide, Nat.testBit_and, Nat.testBit_shiftLeft,
    Nat.testBit_and, notB_testBit, FILE_H_testBit, show M64 = 2 ^ 64 - 1 by decide,
    Nat.testBit_two_pow_sub_one]
  by_cases h0 : t % 8 = 0
  · rcases Nat.eq_zero_or_pos t with rfl | hpos
    · simp
    · have h17 : (t - 1) % 8 = 7 := by omega
      have h1le : 1 ≤ t := hpos
      have hl : t - 1 < 64 := by omega
      simp [h0, h17, h1le, hl, ht]
  · have h1le : 1 ≤ t := by omega
    have h17 : ¬((t - 1) % 8 = 7) := by omega
    have hl : t - 1 < 64 := by omega
    simp [h0, h17, h1le, hl, ht]

/-- `sqFile` is reduction mod 8. -/
theorem sqFile_eq_mod (t : Nat) : sqFile t = t % 8 := by
  unfold sqFile
  have h := Nat.and_pow_two_sub_one_eq_mod t 3
  norm_num at h
  exact h

/-- `sqRank` is division by 8. -/
theorem sqRank_eq_div (t : Nat) : sqRank t = t / 8 := by
  unfold sqRank
  rw [Nat.shiftRight_eq_div_pow]

/-- If `find_piece` reports piece `pc` on square `s`, then the pawn bitboard has a
bit at `s` exactly when `pc` is a pawn. -/
theorem find_piece_pawn (p : Position) (s : Nat) (pc : Piece)
    (h : Position.find_piece p s = some pc) :
    Nat.testBit p.pawns s = decide (pc = Piece.Pawn) := by
  unfold Position.find_piece testB at h
  cases hq : Nat.testBit p.pawns s
  · rw [hq] at h
    simp only [Bool.false_eq_true, if_false] at h
    split_ifs at h <;>
      first
      | (injection h with h2; subst h2; simp)
      | exact Option.noConfusion h
  · rw [hq] at h
    simp only [if_true] at h
    simp_all

/-- The en-passant condition of `make_move` agrees with the claim's condition,
given that the moved piece actually stands on `m.fromSq`. -/
theorem epCondP_iff (p : Position) (m : Move)
    (hf : m.fromSq < 64) (ht : m.toSq < 64)
    (hfp : Position.find_piece p m.fromSq = some m.piece) :
    Position.epCondP p m = true ↔ c2SpecCond p m := by
  have hpw : Nat.testBit p.pawns m.fromSq = decide (m.piece = Piece.Pawn) :=
    find_piece_pawn p m.fromSq m.piece hfp
  cases hw : p.white_to_move <;>
    simp [Position.epCondP, c2SpecCond, Position.them, hw, testB, Nat.testBit_and,
      Nat.testBit_or, testBit_leftB1 _ _ ht, testBit_rightB1 _ _ ht, hpw,
      RANK_2_testBit, RANK_4_testBit, RANK_5_testBit, RANK_7_testBit,
      sqRank_eq_div, sqFile_eq_mod, hf, ht] <;>
    tauto

/-- **C2.** After `make_move`, `details.en_passant` equals the file of `m.fromSq`
exactly when a pawn double-steps from the mover's start rank to the double-step
rank with an enemy pawn horizontally adjacent to the destination square, and
equals 255 in every other case. -/
theorem c2_en_passant_file (p : Position) (m : Move)
    (hf : m.fromSq < 64) (ht : m.toSq < 64)
    (hfp : Position.find_piece p m.fromSq = some m.piece) :
    (p.make_move m).details.en_passant
      = if c2SpecCond p m then sqFile m.fromSq else 255 := by
  rw [make_move_ep]
  by_cases hc : c2SpecCond p m
  · have h1 : Position.epCondP p m = true := (epCondP_iff p m hf ht hfp).mpr hc
    simp [h1, hc]
  · have h1 : Position.epCondP p m = false := by
      cases h3 : Position.epCondP p m
      · rfl
      · exact absurd ((epCondP_iff p m hf ht hfp).mp h3) hc
    simp [h1, hc]

/-- Witness for C2: the double step e2e4 from the starting position (no enemy
pawn is adjacent to e4, so the en-passant file is 255). -/
theorem c2_en_passant_file_witness :
    Position.find_piece STARTING_POSITION moveE2E4.fromSq = some moveE2E4.piece
    ∧ (STARTING_POSITION.make_move moveE2E4).details.en_passant
        = if c2SpecCond STARTING_POSITION moveE2E4 then sqFile moveE2E4.fromSq else 255 :=
  ⟨by decide, c2_en_passant_file STARTING_POSITION moveE2E4 (by decide) (by decide) (by decide)⟩

/-! ## C3: piece-square-table lookup -/

/-- `List.getD` on an all-zero table is zero. -/
theorem getD_replicate_zero (i : Nat) : (List.replicate 64 (0 : Int)).getD i 0 = 0 := by
  unfold List.getD
  rw [List.get?_eq_getElem?, List.getElem?_replicate]
  split <;> rfl

/-- **C3.** The PST lookup for Black at a square is the White-view lookup at the
square mirrored by `XOR 0b111000` (rank flip), for every table; the Queen and
King tables contribute zero for every square and either side. -/
theorem c3_pst_mirror :
    (∀ (t : List Int) (sq : Nat), pstLookup t false sq = pstLookup t true (sq ^^^ 0b111000))
    ∧ (∀ (b : Bool) (sq : Nat), pstLookup QUEEN_PST b sq = 0 ∧ pstLookup KING_PST b sq = 0) := by
  constructor
  · intro t sq
    simp [pstLookup, Nat.xor_assoc]
  · intro b sq
    cases b
    · exact ⟨getD_replicate_zero sq, getD_replicate_zero sq⟩
    · exact ⟨getD_replicate_zero (sq ^^^ 0b111000), getD_replicate_zero (sq ^^^ 0b111000)⟩

/-! ## C6: `Material::is_draw` -/

/-- `eval.rs`: `Material::is_draw` (lines 630-664), transcribed clause by clause;
the early `return`s become nested conditionals. -/
def Material.is_draw (m : Material) : Bool :=
  if m.white_pawns > 0 ∨ m.white_rooks > 0 ∨ m.white_queens > 0 then false
  else if m.black_pawns > 0 ∨ m.black_rooks > 0 ∨ m.black_queens > 0 then false
  else if m.white_bishops = 0 ∧ m.white_knights = 0 then
    if m.black_bishops = 0 ∧ m.black_knights < 3 then true
    else if m.black_bishops > 0 ∧ m.black_bishops + m.black_knights > 1 then false
    else true
  else if m.black_bishops = 0 ∧ m.black_knights = 0 then
    if m.white_bishops = 0 ∧ m.white_knights < 3 then true
    else if m.white_bishops > 0 ∧ m.white_bishops + m.white_knights > 1 then false
    else true
  else false

/-- **C6.** `is_draw` is `true` for K vs K, K+B vs K, K+N vs K and K+NN vs K (in
either orientation) and `false` for K+B vs K+N (in either orientation). Field
order: wP wN wB wR wQ bP bN bB bR bQ. -/
theorem c6_is_draw_configs :
    Material.is_draw ⟨0, 0, 0, 0, 0, 0, 0, 0, 0, 0⟩ = true
    ∧ Material.is_draw ⟨0, 0, 1, 0, 0, 0, 0, 0, 0, 0⟩ = true
    ∧ Material.is_draw ⟨0, 0, 0, 0, 0, 0, 0, 1, 0, 0⟩ = true
    ∧ Material.is_draw ⟨0, 1, 0, 0, 0, 0, 0, 0, 0, 0⟩ = true
    ∧ Material.is_draw ⟨0, 0, 0, 0, 0, 0, 1, 0, 0, 0⟩ = true
    ∧ Material.is_draw ⟨0, 2, 0, 0, 0, 0, 0, 0, 0, 0⟩ = true
    ∧ Material.is_draw ⟨0, 0, 0, 0, 0, 0, 2, 0, 0, 0⟩ = true
    ∧ Material.is_draw ⟨0, 0, 1, 0, 0, 0, 1, 0, 0, 0⟩ = false
    ∧ Material.is_draw ⟨0, 1, 0, 0, 0, 0, 0, 1, 0, 0⟩ = false := by
  decide

/-! ## C8: `king_safety_for_side` short-circuit -/

/-- `eval.rs`: the `CENTER_DISTANCE` table of `king_safety_for_side`. -/
def CENTER_DISTANCE : List Int :=
  [3, 3, 3, 3, 3, 3, 3, 3,
   3, 2, 2, 2, 2, 2, 2, 3,
   3, 2, 1, 1, 1, 1, 2, 3,
   3, 2, 1, 0, 0, 1, 2, 3,
   3, 2, 1, 0, 0, 1, 2, 3,
   3, 2, 1, 1, 1, 1, 2, 3,
   3, 2, 2, 2, 2, 2, 2, 3,
   3, 3, 3, 3, 3, 3, 3, 3]

/-- `eval.rs`: `king_safety_for_side` (lines 243-304). `mat` is the `self.material`
of the `Eval`. The `king.squares().nth(0).unwrap()` panic when the side has no
king is modelled by `Option`; `index` is a `u32`, so `3 - popcount` is truncated
subtraction. -/
def king_safety_for_side (mat : Material) (pos : Position) (white : Bool) :
    Option (Int × Int) :=
  let us := if white then pos.white_pieces else pos.black_pieces
  let them := notB us
  let king := pos.kings &&& us
  match (bbSquares king).head? with
  | none => none
  | some king_sq =>
    let file := sqFile king_sq
    let king_file := FILES file
    let adjacent_files := leftB 1 king ||| king ||| rightB 1 king
    let front := fwdB white 1 adjacent_files
    let distant_front := fwdB white 2 adjacent_files
    let eg_penalty := CENTER_DISTANCE.getD king_sq 0
    if (white = true ∧ mat.black_queens = 0 ∧ mat.black_rooks ≤ 1)
        ∨ (white = false ∧ mat.white_queens = 0 ∧ mat.white_rooks ≤ 1) then
      some (0, -5 * eg_penalty)
    else
      let index : Nat :=
        (3 - popcountB (front &&& pos.pawns &&& us)) * 2
          + (3 - popcountB (distant_front &&& pos.pawns &&& us))
          + popcountB (front &&& pos.pawns &&& them)
          + popcountB (distant_front &&& pos.pawns &&& them)
          + (if king_file &&& pos.pawns = 0 then 2 else 0)
          + (if popcountB (king_file &&& pos.pawns) = 1 then 1 else 0)
          + (if king_file &&& pos.rooks &&& them ≠ 0 then 1 else 0)
      some (-((index * index : Nat) : Int), -5 * eg_penalty)

/-- **C8.** When the side opposing `white` has no queens and at most one rook,
`king_safety_for_side` returns `(0, -5 * CENTER_DISTANCE[king square])`, skipping
the index-based midgame penalty entirely. -/
theorem c8_king_safety_short_circuit (mat : Material) (pos : Position) (white : Bool)
    (ksq : Nat)
    (hq : (if white then mat.black_queens else mat.white_queens) = 0)
    (hr : (if white then mat.black_rooks else mat.white_rooks) ≤ 1)
    (hk : (bbSquares (pos.kings &&&
        (if white then pos.white_pieces else pos.black_pieces))).head? = some ksq) :
    king_safety_for_side mat pos white = some (0, -5 * CENTER_DISTANCE.getD ksq 0) := by
  unfold king_safety_for_side
  cases white
  · simp only [Bool.false_eq_true, if_false] at hq hr hk ⊢
    simp only [hk]
    rw [if_pos (Or.inr ⟨by trivial, hq, hr⟩)]
  · simp only [if_true] at hq hr hk ⊢
    simp only [hk]
    rw [if_pos (Or.inl ⟨by trivial, hq, hr⟩)]

/-- A material record whose black side has no queens and one rook. -/
def c8Mat : Material := ⟨8, 2, 2, 2, 1, 8, 2, 2, 1, 0⟩

/-- Witness for C8: White's king safety at the starting squares against `c8Mat`
(no black queens, one black rook) is the short-circuit value `(0, -15)`. -/
theorem c8_king_safety_short_circuit_witness :
    (bbSquares (STARTING_POSITION.kings &&&
        (if true then STARTING_POSITION.white_pieces
         else STARTING_POSITION.black_pieces))).head? = some 4
    ∧ king_safety_for_side c8Mat STARTING_POSITION true
        = some (0, -5 * CENTER_DISTANCE.getD 4 0) :=
  ⟨by decide,
   c8_king_safety_short_circuit c8Mat STARTING_POSITION true 4
     (by decide) (by decide) (by decide)⟩

/-! ## C9: FEN parsing of unrecognised characters

`impl From<&str> for Position` (`position.rs` lines 847-1044) returns a bare
`Position`; every failure is a `panic!`. Panics are modelled as `Except.error`
carrying the panic message. -/

/-- The `Position` literal that `From<&str>` starts from (`position.rs` lines
849-868): empty boards, all castling rights, en passant 255, provisional king
squares e8/e1. -/
def fenInitPos : Position :=
  { color := 0
    bb := ⟨0, 0, 0, 0, 0, 0⟩
    pieces0 := 0
    pieces1 := 0
    white_to_move := true
    fullmove := 1
    details := ⟨0, 255,
      CASTLE_WHITE_KSIDE ||| CASTLE_WHITE_QSIDE ||| CASTLE_BLACK_KSIDE ||| CASTLE_BLACK_QSIDE⟩
    all_pieces := 0
    king_sq0 := 60
    king_sq1 := 4 }

/-- The three statements after the board-field `match` (`position.rs` lines
990-992): xor the square into the piece and side bitboards, refresh `color`. -/
def fenPlace (pos : Position) (piece : Piece) (white : Bool) (sq : Nat) : Position :=
  let bb' := pos.bb.xorAt piece (bitB sq)
  let p0 := if white then pos.pieces0 else pos.pieces0 ^^^ bitB sq
  let p1 := if white then pos.pieces1 ^^^ bitB sq else pos.pieces1
  { pos with bb := bb', pieces0 := p0, pieces1 := p1, color := p1 }

/-- The board-field loop of `From<&str>` (`position.rs` lines 872-992). The
`panic!` on an unrecognised character becomes `Except.error` of the panic
message. `rank - 1` is the `u8` decrement, truncated at zero like the model's
`Nat`. -/
def parseBoard : List Char → Nat → Nat → Position → Except String Position
  | [], _, _, pos => .ok pos
  | c :: rest, file, rank, pos =>
    match c with
    | 'P' => parseBoard rest (file + 1) rank (fenPlace pos .Pawn true (fileRank file rank))
    | 'N' => parseBoard rest (file + 1) rank (fenPlace pos .Knight true (fileRank file rank))
    | 'B' => parseBoard rest (file + 1) rank (fenPlace pos .Bishop true (fileRank file rank))
    | 'R' => parseBoard rest (file + 1) rank (fenPlace pos .Rook true (fileRank file rank))
    | 'Q' => parseBoard rest (file + 1) rank (fenPlace pos .Queen true (fileRank file rank))
    | 'K' => parseBoard rest (file + 1) rank (fenPlace pos .King true (fileRank file rank))
    | 'p' => parseBoard rest (file + 1) rank (fenPlace pos .Pawn false (fileRank file rank))
    | 'n' => parseBoard rest (file + 1) rank (fenPlace pos .Knight false (fileRank file rank))
    | 'b' => parseBoard rest (file + 1) rank (fenPlace pos .Bishop false (fileRank file rank))
    | 'r' => parseBoard rest (file + 1) rank (fenPlace pos .Rook false (fileRank file rank))
    | 'q' => parseBoard rest (file + 1) rank (fenPlace pos .Queen false (fileRank file rank))
    | 'k' => parseBoard rest (file + 1) rank (fenPlace pos .King false (fileRank file rank))
    | '/' => parseBoard rest 0 (rank - 1) pos
    | '1' => parseBoard rest (file + 1) rank pos
    | '2' => parseBoard rest (file + 2) rank pos
    | '3' => parseBoard rest (file + 3) rank pos
    | '4' => parseBoard rest (file + 4) rank pos
    | '5' => parseBoard rest (file + 5) rank pos
    | '6' => parseBoard rest (file + 6) rank pos
    | '7' => parseBoard rest (file + 7) rank pos
    | '8' => parseBoard rest (file + 8) rank pos
    | x => .error ("Unexpected character in fen position: ".push x)

/-- The castling-field loop of `From<&str>` (`position.rs` lines 1001-1011):
`'-'` breaks out of the loop, the four right characters set bits, anything else
panics. -/
def parseCastling : List Char → Nat → Except String Nat
  | [], castling => .ok castling
  | c :: rest, castling =>
    match c with
    | '-' => .ok castling
    | 'K' => parseCastling rest (castling ||| CASTLE_WHITE_KSIDE)
    | 'Q' => parseCastling rest (castling ||| CASTLE_WHITE_QSIDE)
    | 'k' => parseCastling rest (castling ||| CASTLE_BLACK_KSIDE)
    | 'q' => parseCastling rest (castling ||| CASTLE_BLACK_QSIDE)
    | x => .error ("Unexpected character in fen castling: ".push x)

/-- The en-passant file match of `From<&str>` (`position.rs` lines 1015-1026),
on the first character of the field. -/
def epFileOf (c : Char) : Except String Nat :=
  match c with
  | 'a' => .ok 0
  | 'b' => .ok 1
  | 'c' => .ok 2
  | 'd' => .ok 3
  | 'e' => .ok 4
  | 'f' => .ok 5
  | 'g' => .ok 6
  | 'h' => .ok 7
  | x => .error ("Unexpected character in fen en passant: ".push x)

/-- `fen.split(' ').filter(|s| !s.is_empty())`: the maximal space-free runs of
the string, via an accumulator of the current run (reversed). -/
def splitFields : List Char → List Char → List (List Char)
  | [], acc => if acc.isEmpty then [] else [acc.reverse]
  | c :: rest, acc =>
    if c = ' ' then
      if acc.isEmpty then splitFields rest []
      else acc.reverse :: splitFields rest []
    else splitFields rest (c :: acc)

/-- Rust `str::parse` for an unsigned integer: every character must be a decimal
digit and the field must be non-empty. -/
def digitsToNat (cs : List Char) : Option Nat :=
  if cs.isEmpty then none
  else
    cs.foldl
      (fun acc c =>
        match acc with
        | none => none
        | some n => if 48 ≤ c.toNat ∧ c.toNat ≤ 57 then some (n * 10 + (c.toNat - 48)) else none)
      (some 0)

/-- `position.rs`: `impl From<&str> for Position` (lines 847-1044). Fields are
split on blanks; the four `split.next().unwrap()` panics, the character panics
and the final `king_sq` unwraps become `Except.error`. The halfmove field is
parsed as `u8` (parse failure or overflow falls back to 0), the fullmove as
`usize` (fallback 1). -/
def fromFen (fen : String) : Except String Position :=
  match splitFields fen.data [] with
  | [] => .error ("called Option unwrap on None")
  | boardField :: rest1 =>
    match parseBoard boardField 0 7 fenInitPos with
    | .error e => .error e
    | .ok p1 =>
      let p2 := { p1 with all_pieces := p1.pieces1 ||| p1.pieces0 }
      match rest1 with
      | [] => .error ("called Option unwrap on None")
      | sideField :: rest2 =>
        let p3 := if sideField = ['b'] then { p2 with white_to_move := false } else p2
        match rest2 with
        | [] => .error ("called Option unwrap on None")
        | castlingField :: rest3 =>
          match parseCastling castlingField 0 with
          | .error e => .error e
          | .ok cast =>
            let p4 := { p3 with details := { p3.details with castling := cast } }
            match
              (match rest3 with
               | [] => Except.ok p4
               | epField :: _ =>
                 if epField = ['-'] then Except.ok p4
                 else
                   match epField.head? with
                   | some ch =>
                     match epFileOf ch with
                     | .ok f =>
                       Except.ok { p4 with details := { p4.details with en_passant := f } }
                     | .error e => Except.error e
                   | none => Except.error ("Expected character for fen en passant"))
            with
            | .error e => .error e
            | .ok p5 =>
              let halfmove :=
                match rest3[1]?.bind digitsToNat with
                | some n => if n ≤ 255 then n else 0
                | none => 0
              let fullmove := (rest3[2]?.bind digitsToNat).getD 1
              let p6 := { p5 with
                details := { p5.details with halfmove := halfmove }
                fullmove := fullmove }
              match (bbSquares (p6.bb.king &&& p6.pieces0)).head?,
                  (bbSquares (p6.bb.king &&& p6.pieces1)).head? with
              | some k0, some k1 => .ok { p6 with king_sq0 := k0, king_sq1 := k1 }
              | _, _ => .error ("called Option unwrap on None")

/-- The characters the board-field loop recognises. -/
def fenBoardChars : List Char :=
  ['P', 'N', 'B', 'R', 'Q', 'K', 'p', 'n', 'b', 'r', 'q', 'k',
   '/', '1', '2', '3', '4', '5', '6', '7', '8']

/-- The characters the castling-field loop recognises. -/
def fenCastlingChars : List Char := ['-', 'K', 'Q', 'k', 'q']

/-- The characters the en-passant match recognises. -/
def fenEpChars : List Char := ['a', 'b', 'c', 'd', 'e', 'f', 'g', 'h']

/-- **C9 (amended).** An unrecognised character makes FEN parsing fail, but via a
`panic!` whose message names the character and the field — there is no structured
`ParseError` value, and `From<&str>` cannot return one. The first three conjuncts
cover an arbitrary unrecognised character in the board, castling and en-passant
fields; the last two run the whole parser on concrete strings. -/
theorem c9_fen_unexpected_char_fails :
    (∀ c : Char, c ∉ fenBoardChars → ∀ (rest : List Char) (file rank : Nat) (pos : Position),
        parseBoard (c :: rest) file rank pos
          = Except.error ("Unexpected character in fen position: ".push c))
    ∧ (∀ c : Char, c ∉ fenCastlingChars → ∀ (rest : List Char) (castling : Nat),
        parseCastling (c :: rest) castling
          = Except.error ("Unexpected character in fen castling: ".push c))
    ∧ (∀ c : Char, c ∉ fenEpChars →
        epFileOf c = Except.error ("Unexpected character in fen en passant: ".push c))
    ∧ fromFen ("8/8/8/8/8/8/8/8 w KQxq - 0 1")
        = Except.error ("Unexpected character in fen castling: x")
    ∧ fromFen ("4k3/8/8/8/8/8/8/4K3 w - i6 0 1")
        = Except.error ("Unexpected character in fen en passant: i") := by
  refine ⟨?_, ?_, ?_, ?_, ?_⟩
  · intro c hc rest file rank pos
    simp only [parseBoard]
    split <;> simp_all [fenBoardChars]
  · intro c hc rest castling
    simp only [parseCastling]
    split <;> simp_all [fenCastlingChars]
  · intro c hc
    simp only [epFileOf]
    split <;> simp_all [fenEpChars]
  · rfl
  · rfl

/-- Witness for C9: the concrete character `'x'` is unrecognised in the board
field and produces the panic message. -/
theorem c9_fen_unexpected_char_fails_witness :
    'x' ∉ fenBoardChars
    ∧ parseBoard ['x'] 0 7 fenInitPos
        = Except.error ("Unexpected character in fen position: ".push 'x') :=
  ⟨by decide, c9_fen_unexpected_char_fails.1 'x' (by decide) [] 0 7 fenInitPos⟩

/-- Counterexample for C9 as stated: on an unrecognised board character the
parser panics with a plain formatted message — modelled as `Except.error` of that
exact string — rather than returning a structured error value; no `ParseError`
type exists in the program. -/
theorem c9_no_structured_parse_error :
    fromFen ("4k3/8/8/8/8/8/8/3xK3 w - - 0 1")
      = Except.error ("Unexpected character in fen position: x") := rfl

end Asym
